import Mathlib

/-! Click-and-Destroy engine (`BasicGraphicsEngine/main.cpp`).

A shallow embedding of the engine logic of `main.cpp`: object spawning, object
rotation, ray picking, particle bursts, particle ageing and the per-tick
update / input / render order of `main`.

Conventions of the embedding.

* C++ `float` and `double` values are scalars of a linearly ordered field `α`
  (exact arithmetic); every definition is generic in `α`, so it runs on `ℚ` and
  is reasoned about on `ℝ`.
* glm is an external library: its functions (`dot`, `cross`, `normalize`,
  `inverse`, `lookAt`, `perspective`, `radians`, `two_pi`) are written out here
  after glm's own formulas. The C library functions glm calls (`sqrt`, `tan`)
  and the constant `π` are explicit arguments `sqrt`, `tan`, `pi`.
* `rand()` is a stream `rnd : ℕ → ℤ` (the k-th value returned since program
  start) together with the number of calls made so far.
* `LoadTexture` is a stream `tex : ℕ → ℕ` of texture handles, with a call count.
* `std::vector` is `List`; `int` is `ℤ` (no wrap-around is modelled).
-/

namespace Engine

/-! ## glm vectors and matrices -/

/-- The glm type `vec3`. -/
structure Vec3 (α : Type) where
  x : α
  y : α
  z : α
deriving DecidableEq, Repr

/-- The glm type `vec4`. -/
structure Vec4 (α : Type) where
  x : α
  y : α
  z : α
  w : α
deriving DecidableEq, Repr

/-- The glm type `mat4`: four columns, `m[c]` is column `c`, `m[c][r]` its row `r`. -/
structure Mat4 (α : Type) where
  c0 : Vec4 α
  c1 : Vec4 α
  c2 : Vec4 α
  c3 : Vec4 α
deriving DecidableEq, Repr

section Glm

variable {α : Type} [LinearOrderedField α]

/-- Componentwise `vec3 + vec3`. -/
def Vec3.add (a b : Vec3 α) : Vec3 α := ⟨a.x + b.x, a.y + b.y, a.z + b.z⟩

/-- Componentwise `vec3 - vec3`. -/
def Vec3.sub (a b : Vec3 α) : Vec3 α := ⟨a.x - b.x, a.y - b.y, a.z - b.z⟩

/-- The product `vec3 * scalar`. -/
def Vec3.smul (a : Vec3 α) (k : α) : Vec3 α := ⟨a.x * k, a.y * k, a.z * k⟩

/-- The function `glm::dot` on `vec3`. -/
def dot (a b : Vec3 α) : α := a.x * b.x + a.y * b.y + a.z * b.z

/-- The function `glm::cross`. -/
def cross (a b : Vec3 α) : Vec3 α :=
  ⟨a.y * b.z - b.y * a.z, a.z * b.x - b.z * a.x, a.x * b.y - b.x * a.y⟩

/-- The function `glm::inversesqrt`: `1 / sqrt(x)`. -/
def inversesqrt (sqrt : α → α) (x : α) : α := 1 / sqrt x

/-- The function `glm::normalize` on `vec3`: `v * inversesqrt(dot(v, v))`. -/
def normalize (sqrt : α → α) (v : Vec3 α) : Vec3 α := v.smul (inversesqrt sqrt (dot v v))

/-- Componentwise `vec4 * vec4`. -/
def Vec4.mul (a b : Vec4 α) : Vec4 α := ⟨a.x * b.x, a.y * b.y, a.z * b.z, a.w * b.w⟩

/-- Componentwise `vec4 + vec4`. -/
def Vec4.add (a b : Vec4 α) : Vec4 α := ⟨a.x + b.x, a.y + b.y, a.z + b.z, a.w + b.w⟩

/-- Componentwise `vec4 - vec4`. -/
def Vec4.sub (a b : Vec4 α) : Vec4 α := ⟨a.x - b.x, a.y - b.y, a.z - b.z, a.w - b.w⟩

/-- The product `vec4 * scalar`. -/
def Vec4.smul (a : Vec4 α) (k : α) : Vec4 α := ⟨a.x * k, a.y * k, a.z * k, a.w * k⟩

/-- The conversion `glm::vec3(vec4)`: drops `w`. -/
def Vec4.xyz (a : Vec4 α) : Vec3 α := ⟨a.x, a.y, a.z⟩

/-- The product `mat4 * vec4`: `m[0]*v.x + m[1]*v.y + m[2]*v.z + m[3]*v.w`. -/
def Mat4.mulVec (m : Mat4 α) (v : Vec4 α) : Vec4 α :=
  ((m.c0.smul v.x).add (m.c1.smul v.y)).add ((m.c2.smul v.z).add (m.c3.smul v.w))

/-- The product `mat4 * scalar`. -/
def Mat4.smul (m : Mat4 α) (k : α) : Mat4 α :=
  ⟨m.c0.smul k, m.c1.smul k, m.c2.smul k, m.c3.smul k⟩

/-- The function `glm::inverse` on `mat4`: glm's cofactor expansion, each
cofactor column scaled by one over the determinant. -/
def inverse (m : Mat4 α) : Mat4 α :=
  let coef00 := m.c2.z * m.c3.w - m.c3.z * m.c2.w
  let coef02 := m.c1.z * m.c3.w - m.c3.z * m.c1.w
  let coef03 := m.c1.z * m.c2.w - m.c2.z * m.c1.w
  let coef04 := m.c2.y * m.c3.w - m.c3.y * m.c2.w
  let coef06 := m.c1.y * m.c3.w - m.c3.y * m.c1.w
  let coef07 := m.c1.y * m.c2.w - m.c2.y * m.c1.w
  let coef08 := m.c2.y * m.c3.z - m.c3.y * m.c2.z
  let coef10 := m.c1.y * m.c3.z - m.c3.y * m.c1.z
  let coef11 := m.c1.y * m.c2.z - m.c2.y * m.c1.z
  let coef12 := m.c2.x * m.c3.w - m.c3.x * m.c2.w
  let coef14 := m.c1.x * m.c3.w - m.c3.x * m.c1.w
  let coef15 := m.c1.x * m.c2.w - m.c2.x * m.c1.w
  let coef16 := m.c2.x * m.c3.z - m.c3.x * m.c2.z
  let coef18 := m.c1.x * m.c3.z - m.c3.x * m.c1.z
  let coef19 := m.c1.x * m.c2.z - m.c2.x * m.c1.z
  let coef20 := m.c2.x * m.c3.y - m.c3.x * m.c2.y
  let coef22 := m.c1.x * m.c3.y - m.c3.x * m.c1.y
  let coef23 := m.c1.x * m.c2.y - m.c2.x * m.c1.y
  let fac0 : Vec4 α := ⟨coef00, coef00, coef02, coef03⟩
  let fac1 : Vec4 α := ⟨coef04, coef04, coef06, coef07⟩
  let fac2 : Vec4 α := ⟨coef08, coef08, coef10, coef11⟩
  let fac3 : Vec4 α := ⟨coef12, coef12, coef14, coef15⟩
  let fac4 : Vec4 α := ⟨coef16, coef16, coef18, coef19⟩
  let fac5 : Vec4 α := ⟨coef20, coef20, coef22, coef23⟩
  let vec0 : Vec4 α := ⟨m.c1.x, m.c0.x, m.c0.x, m.c0.x⟩
  let vec1 : Vec4 α := ⟨m.c1.y, m.c0.y, m.c0.y, m.c0.y⟩
  let vec2 : Vec4 α := ⟨m.c1.z, m.c0.z, m.c0.z, m.c0.z⟩
  let vec3 : Vec4 α := ⟨m.c1.w, m.c0.w, m.c0.w, m.c0.w⟩
  let inv0 := ((vec1.mul fac0).sub (vec2.mul fac1)).add (vec3.mul fac2)
  let inv1 := ((vec0.mul fac0).sub (vec2.mul fac3)).add (vec3.mul fac4)
  let inv2 := ((vec0.mul fac1).sub (vec1.mul fac3)).add (vec3.mul fac5)
  let inv3 := ((vec0.mul fac2).sub (vec1.mul fac4)).add (vec2.mul fac5)
  let signA : Vec4 α := ⟨1, -1, 1, -1⟩
  let signB : Vec4 α := ⟨-1, 1, -1, 1⟩
  let inv : Mat4 α := ⟨inv0.mul signA, inv1.mul signB, inv2.mul signA, inv3.mul signB⟩
  let row0 : Vec4 α := ⟨inv.c0.x, inv.c1.x, inv.c2.x, inv.c3.x⟩
  let dot0 := m.c0.mul row0
  let dot1 := (dot0.x + dot0.y) + (dot0.z + dot0.w)
  let oneOverDeterminant := 1 / dot1
  inv.smul oneOverDeterminant

/-- The function `glm::lookAt` (right-handed): the view matrix of a camera at
`eye` looking at `center`. -/
def lookAt (sqrt : α → α) (eye center up : Vec3 α) : Mat4 α :=
  let f := normalize sqrt (center.sub eye)
  let s := normalize sqrt (cross f up)
  let u := cross s f
  ⟨⟨s.x, u.x, -f.x, 0⟩, ⟨s.y, u.y, -f.y, 0⟩, ⟨s.z, u.z, -f.z, 0⟩,
   ⟨-dot s eye, -dot u eye, dot f eye, 1⟩⟩

/-- The function `glm::perspective` (right-handed, depth in `[-1, 1]`). -/
def perspective (tan : α → α) (fovy aspect zNear zFar : α) : Mat4 α :=
  let tanHalfFovy := tan (fovy / 2)
  ⟨⟨1 / (aspect * tanHalfFovy), 0, 0, 0⟩,
   ⟨0, 1 / tanHalfFovy, 0, 0⟩,
   ⟨0, 0, -(zFar + zNear) / (zFar - zNear), -1⟩,
   ⟨0, 0, -(2 * zFar * zNear) / (zFar - zNear), 0⟩⟩

/-- The function `glm::radians`: degrees to radians. -/
def radians (pi : α) (degrees : α) : α := degrees * (pi / 180)

/-- The constant `glm::two_pi<float>()`. -/
def two_pi (pi : α) : α := 2 * pi

end Glm

/-! ## Data structures -/

/-- The struct `GameObject`. -/
structure GameObject (α : Type) where
  position : Vec3 α
  color : Vec3 α
  active : Bool
  radius : α
  rotation : α
  rotationSpeed : α
  textureID : ℕ
deriving DecidableEq, Repr

/-- The struct `Particle`. -/
structure Particle (α : Type) where
  position : Vec3 α
  velocity : Vec3 α
  life : α
deriving DecidableEq, Repr

section Logic

variable {α : Type} [LinearOrderedField α]

/-! ## `SpawnObjects` -/

/-- The object built by one iteration of the loop of `SpawnObjects`, when
`calls` values of `rand()` have been drawn before it and `LoadTexture` returns
`textureID`. The four `rand()` calls are numbered in source order: x, y, z,
then the rotation speed. -/
def spawnObject (pi : α) (rnd : ℕ → ℤ) (objectSpread : α) (calls textureID : ℕ) :
    GameObject α :=
  { position :=
      ⟨((((rnd calls).tmod 100 : ℤ) : α) / 50 - 1) * objectSpread,
       ((((rnd (calls + 1)).tmod 100 : ℤ) : α) / 50 - 1) * objectSpread,
       ((((rnd (calls + 2)).tmod 100 : ℤ) : α) / 50 - 1) * objectSpread⟩
    color := ⟨1, 1 / 2, 1 / 5⟩
    active := true
    radius := 1 / 2
    rotation := 0
    rotationSpeed := radians pi (45 + (((rnd (calls + 3)).tmod 90 : ℤ) : α))
    textureID := textureID }

/-- The loop `for (int i = 0; i < targetObjectCount; i++)` of `SpawnObjects`,
from index `i` on; returns the store and the numbers of `rand()` and
`LoadTexture` calls made so far. -/
def SpawnObjectsLoop (pi : α) (rnd : ℕ → ℤ) (tex : ℕ → ℕ) (targetObjectCount : ℤ)
    (objectSpread : α) (i : ℤ) (objects : List (GameObject α)) (randCalls texCalls : ℕ) :
    List (GameObject α) × ℕ × ℕ :=
  if i < targetObjectCount then
    let obj := spawnObject pi rnd objectSpread randCalls (tex texCalls)
    SpawnObjectsLoop pi rnd tex targetObjectCount objectSpread (i + 1) (objects ++ [obj])
      (randCalls + 4) (texCalls + 1)
  else (objects, randCalls, texCalls)
termination_by (targetObjectCount - i).toNat
decreasing_by omega

/-- The function `SpawnObjects`: `objects.clear()` and then the spawn loop. The
argument `objects` is the prior content of the store. -/
def SpawnObjects (pi : α) (rnd : ℕ → ℤ) (tex : ℕ → ℕ) (targetObjectCount : ℤ)
    (objectSpread : α) (_objects : List (GameObject α)) (randCalls texCalls : ℕ) :
    List (GameObject α) × ℕ × ℕ :=
  SpawnObjectsLoop pi rnd tex targetObjectCount objectSpread 0 [] randCalls texCalls

/-! ## `UpdateObjects` -/

/-- The body of the loop of `UpdateObjects` for one object. -/
def updateObject (pi : α) (deltaTime : α) (obj : GameObject α) : GameObject α :=
  if !obj.active then obj
  else
    let obj1 := { obj with rotation := obj.rotation + obj.rotationSpeed * deltaTime }
    if obj1.rotation > two_pi pi then { obj1 with rotation := obj1.rotation - two_pi pi }
    else obj1

/-- The function `UpdateObjects`: the loop body applied to every object in place. -/
def UpdateObjects (pi : α) (deltaTime : α) (objects : List (GameObject α)) :
    List (GameObject α) :=
  objects.map (updateObject pi deltaTime)

/-! ## `CheckObjectClick` -/

/-- Steps A to C of `CheckObjectClick`: the world-space ray direction `ray_wor`. -/
def rayDirection (sqrt : α → α) (mouseX mouseY : α) (screenW screenH : ℤ)
    (view projection : Mat4 α) : Vec3 α :=
  let x := (2 * mouseX) / (screenW : α) - 1
  let y := 1 - (2 * mouseY) / (screenH : α)
  let ray_clip : Vec4 α := ⟨x, y, -1, 1⟩
  let ray_eye0 := (inverse projection).mulVec ray_clip
  let ray_eye : Vec4 α := ⟨ray_eye0.x, ray_eye0.y, -1, 0⟩
  let ray_wor := ((inverse view).mulVec ray_eye).xyz
  normalize sqrt ray_wor

/-- Step D of `CheckObjectClick`: `ray_origin = vec3(inverse(view)[3])`. -/
def rayOrigin (view : Mat4 α) : Vec3 α := (inverse view).c3.xyz

/-- The ray-vs-sphere test of the loop body of `CheckObjectClick`: `true` when
neither `continue` is taken, so that `return i` is reached. -/
def rayHitsSphere (ray_origin ray_wor position : Vec3 α) (radius : α) : Bool :=
  let m := ray_origin.sub position
  let b := dot m ray_wor
  let c := dot m m - radius * radius
  if c > 0 ∧ b > 0 then false
  else
    let discr := b * b - c
    if discr < 0 then false
    else true

/-- Step E of `CheckObjectClick`: the loop over the store from index `i` on,
`objects` being the objects at indices `i`, `i + 1`, ... -/
def CheckObjectClickLoop (ray_origin ray_wor : Vec3 α) :
    List (GameObject α) → ℤ → ℤ
  | [], _ => -1
  | obj :: rest, i =>
    if !obj.active then CheckObjectClickLoop ray_origin ray_wor rest (i + 1)
    else if rayHitsSphere ray_origin ray_wor obj.position obj.radius then i
    else CheckObjectClickLoop ray_origin ray_wor rest (i + 1)

/-- The function `CheckObjectClick`; the global `objects` is an argument. -/
def CheckObjectClick (sqrt : α → α) (objects : List (GameObject α)) (mouseX mouseY : α)
    (screenW screenH : ℤ) (view projection : Mat4 α) : ℤ :=
  CheckObjectClickLoop (rayOrigin view)
    (rayDirection sqrt mouseX mouseY screenW screenH view projection) objects 0

/-! ## `SpawnExplosion` and `UpdateParticles` -/

/-- The particle built by one iteration of the loop of `SpawnExplosion`, when
`calls` values of `rand()` have been drawn before it. The three `rand()` calls
are numbered in source order: x, y, z. -/
def burstParticle (rnd : ℕ → ℤ) (center : Vec3 α) (calls : ℕ) : Particle α :=
  { position := center
    velocity :=
      (Vec3.mk ((((rnd calls).tmod 100 - 50 : ℤ) : α) / 100)
        ((((rnd (calls + 1)).tmod 100 - 50 : ℤ) : α) / 100)
        ((((rnd (calls + 2)).tmod 100 - 50 : ℤ) : α) / 100)).smul 6
    life := 1 }

/-- The loop `for (int i = 0; i < 20; i++)` of `SpawnExplosion`, from index `i` on. -/
def SpawnExplosionLoop (rnd : ℕ → ℤ) (center : Vec3 α) (i : ℤ)
    (particles : List (Particle α)) (randCalls : ℕ) : List (Particle α) × ℕ :=
  if i < 20 then
    SpawnExplosionLoop rnd center (i + 1) (particles ++ [burstParticle rnd center randCalls])
      (randCalls + 3)
  else (particles, randCalls)
termination_by (20 - i).toNat
decreasing_by omega

/-- The function `SpawnExplosion`; returns the particle list and the number of
`rand()` calls made so far. -/
def SpawnExplosion (rnd : ℕ → ℤ) (center : Vec3 α) (particles : List (Particle α))
    (randCalls : ℕ) : List (Particle α) × ℕ :=
  SpawnExplosionLoop rnd center 0 particles randCalls

/-- The two assignments at the head of the loop body of `UpdateParticles`. -/
def stepParticle (deltaTime : α) (p : Particle α) : Particle α :=
  let p1 := { p with position := p.position.add (p.velocity.smul deltaTime) }
  { p1 with life := p1.life - deltaTime * (3 / 2) }

/-- The loop `for (int i = 0; i < particles.size(); i++)` of `UpdateParticles`,
from index `i` on: element `i` is stepped in place; when its life is `<= 0` it
is erased and `i` is decremented before the loop's own `i++`. -/
def UpdateParticlesLoop (deltaTime : α) (particles : List (Particle α)) (i : ℤ) :
    List (Particle α) :=
  if h : 0 ≤ i ∧ i < particles.length then
    have hi : i.toNat < particles.length := by omega
    let p := stepParticle deltaTime (particles.get ⟨i.toNat, hi⟩)
    let particles1 := particles.set i.toNat p
    if p.life ≤ 0 then
      UpdateParticlesLoop deltaTime (particles1.eraseIdx i.toNat) (i - 1 + 1)
    else UpdateParticlesLoop deltaTime particles1 (i + 1)
  else particles
termination_by (particles.length - i).toNat
decreasing_by
  all_goals simp_wf
  · simp only [List.length_eraseIdx, List.length_set, if_pos hi]
    omega
  · omega

/-- The function `UpdateParticles`. -/
def UpdateParticles (deltaTime : α) (particles : List (Particle α)) : List (Particle α) :=
  UpdateParticlesLoop deltaTime particles 0

/-! ## The main loop -/

/-- The global variables of `main.cpp` that the engine logic reads or writes,
with the call counts of `rand()` and `LoadTexture`. -/
structure State (α : Type) where
  width : ℤ
  height : ℤ
  deltaTime : α
  lastFrame : α
  canClick : Bool
  view : Mat4 α
  projection : Mat4 α
  targetObjectCount : ℤ
  objectSpread : α
  objects : List (GameObject α)
  particles : List (Particle α)
  randCalls : ℕ
  texCalls : ℕ

/-- What the window system and the UI report during one iteration of the render
loop. -/
structure TickInput (α : Type) where
  /-- The value of `glfwGetTime()`. -/
  currentFrame : α
  /-- The value of `io.WantCaptureMouse`. -/
  wantCaptureMouse : Bool
  /-- Whether `glfwGetMouseButton(window, GLFW_MOUSE_BUTTON_LEFT) == GLFW_PRESS`. -/
  mousePressed : Bool
  /-- The cursor position of `glfwGetCursorPos`. -/
  xpos : α
  ypos : α
  /-- The value the `Object Count` slider leaves in `targetObjectCount`. -/
  sliderObjectCount : ℤ
  /-- The value the `Displacement` slider leaves in `objectSpread`. -/
  sliderSpread : α
  /-- Whether `ImGui::Button("Regenerate")` reports a press. -/
  regenerate : Bool
  /-- The size passed to `framebuffer_size_callback` during `glfwPollEvents`, if any. -/
  resize : Option (ℤ × ℤ)

/-- The block `if (hitIndex != -1) { ... }` of `main`: deactivate the object and
spawn the burst at its position. -/
def handleHit (rnd : ℕ → ℤ) (s : State α) (hitIndex : ℤ) : State α :=
  if hitIndex ≠ -1 then
    match s.objects.get? hitIndex.toNat with
    | some obj =>
      let objects1 := s.objects.set hitIndex.toNat { obj with active := false }
      let r := SpawnExplosion rnd obj.position s.particles s.randCalls
      { s with objects := objects1, particles := r.1, randCalls := r.2 }
    | none => s
  else s

/-- Timing, `UpdateObjects`, input handling and `UpdateParticles` of one
iteration of the render loop: everything before `RENDER SCENE`. The second
component is the value returned by `CheckObjectClick` when it was called. -/
def frameUpdate (sqrt : α → α) (pi : α) (rnd : ℕ → ℤ) (s : State α) (inp : TickInput α) :
    State α × Option ℤ :=
  let deltaTime := inp.currentFrame - s.lastFrame
  let s1 := { s with deltaTime := deltaTime, lastFrame := inp.currentFrame }
  let s2 := { s1 with objects := UpdateObjects pi deltaTime s1.objects }
  let r : State α × Option ℤ :=
    if inp.wantCaptureMouse then ({ s2 with canClick := true }, none)
    else if inp.mousePressed then
      if s2.canClick then
        let hitIndex := CheckObjectClick sqrt s2.objects inp.xpos inp.ypos s2.width s2.height
          s2.view s2.projection
        ({ (handleHit rnd s2 hitIndex) with canClick := false }, some hitIndex)
      else (s2, none)
    else ({ s2 with canClick := true }, none)
  ({ r.1 with particles := UpdateParticles deltaTime r.1.particles }, r.2)

/-- The objects the loop `Draw active Game Objects` submits to `DrawCube`. -/
def drawnObjects (s : State α) : List (GameObject α) :=
  s.objects.filter (fun obj => obj.active)

/-- The particles the loop `Draw Particles` submits to `DrawCube`. -/
def drawnParticles (s : State α) : List (Particle α) :=
  s.particles.filter (fun p => !decide (p.life ≤ 0))

/-- The rest of the iteration, from `RENDER SCENE` on, as far as it writes the
globals: the projection is recomputed, the UI sliders and the `Regenerate`
button act, and `glfwPollEvents` may run the resize callback. -/
def frameRender (tan : α → α) (pi : α) (rnd : ℕ → ℤ) (tex : ℕ → ℕ) (s : State α)
    (inp : TickInput α) : State α :=
  let s1 := { s with
    projection :=
      perspective tan (radians pi 45) ((s.width : α) / (s.height : α)) (1 / 10) 100 }
  let s2 := { s1 with targetObjectCount := inp.sliderObjectCount, objectSpread := inp.sliderSpread }
  let s3 :=
    if inp.regenerate then
      let r := SpawnObjects pi rnd tex s2.targetObjectCount s2.objectSpread s2.objects
        s2.randCalls s2.texCalls
      { s2 with objects := r.1, randCalls := r.2.1, texCalls := r.2.2 }
    else s2
  match inp.resize with
  | some (w, h) => { s3 with width := w, height := h }
  | none => s3

/-- One iteration of the render loop of `main`. -/
def tick (sqrt tan : α → α) (pi : α) (rnd : ℕ → ℤ) (tex : ℕ → ℕ) (s : State α)
    (inp : TickInput α) : State α × Option ℤ :=
  let r := frameUpdate sqrt pi rnd s inp
  (frameRender tan pi rnd tex r.1 inp, r.2)

/-- Consecutive iterations of the render loop, one per input; returns the final
state and, per iteration, the value returned by `CheckObjectClick` when it was
called in that iteration. -/
def runTicks (sqrt tan : α → α) (pi : α) (rnd : ℕ → ℤ) (tex : ℕ → ℕ) :
    State α → List (TickInput α) → State α × List (Option ℤ)
  | s, [] => (s, [])
  | s, inp :: rest =>
    let r := tick sqrt tan pi rnd tex s inp
    let r2 := runTicks sqrt tan pi rnd tex r.1 rest
    (r2.1, r.2 :: r2.2)

/-- The number of iterations that called `CheckObjectClick`. -/
def pickCount (events : List (Option ℤ)) : ℕ :=
  (events.filter (fun e => e.isSome)).length

/-- The number of iterations that ran the pair `objects[hitIndex].active = false;
SpawnExplosion(...)`: those where `CheckObjectClick` returned an index other
than `-1`. -/
def burstCount (events : List (Option ℤ)) : ℕ :=
  (events.filter (fun e => e.isSome && e != some (-1))).length

/-- The state of the globals when `main` enters the render loop: the initial
values of the globals, `SpawnObjects()`, and the camera of step 7. -/
def initState (sqrt tan : α → α) (pi : α) (rnd : ℕ → ℤ) (tex : ℕ → ℕ) : State α :=
  let r := SpawnObjects pi rnd tex 2 (5 : α) [] 0 0
  { width := 1280
    height := 720
    deltaTime := 0
    lastFrame := 0
    canClick := true
    view := lookAt sqrt ⟨0, 5, 10⟩ ⟨0, 0, 0⟩ ⟨0, 1, 0⟩
    projection := perspective tan (radians pi 45) ((1280 : α) / (720 : α)) (1 / 10) 100
    targetObjectCount := 2
    objectSpread := 5
    objects := r.1
    particles := []
    randCalls := r.2.1
    texCalls := r.2.2 }

/-- The input of an iteration at time `currentFrame` in which the left button is
reported pressed with the cursor at `(xpos, ypos)`, the UI leaves the sliders
at their initial values, `Regenerate` is not pressed and the window is not
resized; `wantCaptureMouse` is the pointer-over-UI signal. -/
def pressAt (currentFrame xpos ypos : α) (wantCaptureMouse : Bool) : TickInput α :=
  { currentFrame := currentFrame
    wantCaptureMouse := wantCaptureMouse
    mousePressed := true
    xpos := xpos
    ypos := ypos
    sliderObjectCount := 2
    sliderSpread := 5
    regenerate := false
    resize := none }

/-! ## Conditions as the specification words them -/

/-- The ray-vs-sphere condition in the words of the specification: with
`m = origin - position`, `b = dot(m, dir)` and `c = dot(m, m) - radius^2`,
not (`c > 0` and `b > 0`), and `b*b - c >= 0`. -/
def specRayTest (origin dir position : Vec3 α) (radius : α) : Prop :=
  ¬ (dot (origin.sub position) (origin.sub position) - radius * radius > 0 ∧
      dot (origin.sub position) dir > 0) ∧
    dot (origin.sub position) dir * dot (origin.sub position) dir -
      (dot (origin.sub position) (origin.sub position) - radius * radius) ≥ 0

instance (origin dir position : Vec3 α) (radius : α) :
    Decidable (specRayTest origin dir position radius) := by
  unfold specRayTest
  infer_instance

end Logic

/-! # Theorems -/

section Picking

variable {α : Type} [LinearOrderedField α]

/-! ## The ray-vs-sphere test -/

theorem dot_ray_point (o d p : Vec3 α) (t : α) :
    dot ((o.add (d.smul t)).sub p) ((o.add (d.smul t)).sub p) =
      dot (o.sub p) (o.sub p) + 2 * t * dot (o.sub p) d + t * t * dot d d := by
  simp only [dot, Vec3.add, Vec3.sub, Vec3.smul]
  ring

theorem rayHitsSphere_eq_true_iff (o d p : Vec3 α) (r : α) :
    rayHitsSphere o d p r = true ↔
      ¬ (dot (o.sub p) (o.sub p) - r * r > 0 ∧ dot (o.sub p) d > 0) ∧
      ¬ (dot (o.sub p) d * dot (o.sub p) d - (dot (o.sub p) (o.sub p) - r * r) < 0) := by
  unfold rayHitsSphere
  by_cases h1 : dot (o.sub p) (o.sub p) - r * r > 0 ∧ dot (o.sub p) d > 0
  · simp only [if_pos h1]
    exact ⟨fun h => absurd h (by decide), fun h => absurd h1 h.1⟩
  · by_cases h2 : dot (o.sub p) d * dot (o.sub p) d - (dot (o.sub p) (o.sub p) - r * r) < 0
    · simp only [if_neg h1, if_pos h2]
      exact ⟨fun h => absurd h (by decide), fun h => absurd h2 h.2⟩
    · simp only [if_neg h1, if_neg h2]
      exact ⟨fun _ => ⟨h1, h2⟩, fun _ => trivial⟩

theorem rayHitsSphere_iff_exists (o d p : Vec3 α) (r : α) (hd : dot d d = 1) :
    rayHitsSphere o d p r = true ↔
      ∃ t : α, 0 ≤ t ∧
        dot ((o.add (d.smul t)).sub p) ((o.add (d.smul t)).sub p) ≤ r * r := by
  rw [rayHitsSphere_eq_true_iff]
  simp only [dot_ray_point, hd]
  generalize dot (o.sub p) (o.sub p) = mm
  generalize dot (o.sub p) d = b
  constructor
  · rintro ⟨h1, h2⟩
    by_cases hc : mm - r * r > 0
    · have hb : b ≤ 0 := by
        by_contra hb
        exact h1 ⟨hc, lt_of_not_ge hb⟩
      refine ⟨-b, by linarith, ?_⟩
      have h3 := le_of_not_lt h2
      nlinarith
    · exact ⟨0, le_refl 0, by simp; linarith⟩
  · rintro ⟨t, ht, h⟩
    constructor
    · rintro ⟨hc, hb⟩
      nlinarith [mul_nonneg ht (le_of_lt hb), mul_self_nonneg t]
    · intro h2
      nlinarith [mul_self_nonneg (t + b)]

theorem rayHitsSphere_iff_specRayTest (o d p : Vec3 α) (r : α) :
    rayHitsSphere o d p r = true ↔ specRayTest o d p r := by
  rw [rayHitsSphere_eq_true_iff]
  unfold specRayTest
  rw [not_lt]

/-! ## The loop of `CheckObjectClick` -/

theorem CheckObjectClickLoop_cons (o d : Vec3 α) (obj : GameObject α)
    (rest : List (GameObject α)) (i : ℤ) :
    CheckObjectClickLoop o d (obj :: rest) i =
      if obj.active = true ∧ rayHitsSphere o d obj.position obj.radius = true then i
      else CheckObjectClickLoop o d rest (i + 1) := by
  rw [CheckObjectClickLoop]
  by_cases ha : obj.active = true
  · by_cases hh : rayHitsSphere o d obj.position obj.radius = true
    · simp [ha, hh]
    · simp [ha, hh]
  · simp [ha]

theorem CheckObjectClickLoop_range (o d : Vec3 α) (objs : List (GameObject α)) (i : ℤ) :
    CheckObjectClickLoop o d objs i = -1 ∨
      (i ≤ CheckObjectClickLoop o d objs i ∧
        CheckObjectClickLoop o d objs i < i + objs.length) := by
  induction objs generalizing i with
  | nil => left; rfl
  | cons obj rest ih =>
    rw [CheckObjectClickLoop_cons]
    split
    · right
      simp only [List.length_cons, Nat.cast_add, Nat.cast_one]
      omega
    · rcases ih (i + 1) with h | h
      · left; exact h
      · right
        simp only [List.length_cons, Nat.cast_add, Nat.cast_one]
        omega

theorem CheckObjectClickLoop_none (o d : Vec3 α) (objs : List (GameObject α)) (i : ℤ)
    (hi : 0 ≤ i) (h : CheckObjectClickLoop o d objs i = -1) :
    ∀ obj ∈ objs, ¬ (obj.active = true ∧ rayHitsSphere o d obj.position obj.radius = true) := by
  induction objs generalizing i with
  | nil => intro obj hobj; simp at hobj
  | cons obj rest ih =>
    rw [CheckObjectClickLoop_cons] at h
    split at h
    · omega
    · rename_i hP
      intro obj' hobj'
      rcases List.mem_cons.1 hobj' with rfl | hmem
      · exact hP
      · exact ih (i + 1) (by omega) h obj' hmem

theorem CheckObjectClickLoop_all_fail (o d : Vec3 α) (objs : List (GameObject α)) (i : ℤ)
    (h : ∀ obj ∈ objs,
      ¬ (obj.active = true ∧ rayHitsSphere o d obj.position obj.radius = true)) :
    CheckObjectClickLoop o d objs i = -1 := by
  induction objs generalizing i with
  | nil => rfl
  | cons obj rest ih =>
    rw [CheckObjectClickLoop_cons, if_neg (h obj (List.mem_cons_self _ _))]
    exact ih (i + 1) (fun obj' hobj' => h obj' (List.mem_cons_of_mem _ hobj'))

theorem CheckObjectClickLoop_first (o d : Vec3 α) (objs : List (GameObject α)) (i : ℤ)
    (k : ℕ) (obj : GameObject α) (hk : objs[k]? = some obj)
    (hP : obj.active = true ∧ rayHitsSphere o d obj.position obj.radius = true)
    (hlow : ∀ j, j < k → ∀ obj', objs[j]? = some obj' →
      ¬ (obj'.active = true ∧ rayHitsSphere o d obj'.position obj'.radius = true)) :
    CheckObjectClickLoop o d objs i = i + k := by
  induction objs generalizing i k with
  | nil => simp at hk
  | cons hd rest ih =>
    rw [CheckObjectClickLoop_cons]
    cases k with
    | zero =>
      simp only [List.getElem?_cons_zero, Option.some.injEq] at hk
      subst hk
      rw [if_pos hP]
      simp
    | succ k =>
      have h0 := hlow 0 (Nat.succ_pos k) hd (by simp)
      rw [if_neg h0]
      simp only [List.getElem?_cons_succ] at hk
      rw [ih (i + 1) k hk (fun j hj obj' hobj' => hlow (j + 1) (by omega) obj' (by simpa using hobj'))]
      push_cast
      ring

theorem CheckObjectClickLoop_some (o d : Vec3 α) (objs : List (GameObject α)) (i : ℤ)
    (h : CheckObjectClickLoop o d objs i ≠ -1) :
    ∃ (k : ℕ) (obj : GameObject α), CheckObjectClickLoop o d objs i = i + k ∧
      objs[k]? = some obj ∧
      (obj.active = true ∧ rayHitsSphere o d obj.position obj.radius = true) ∧
      ∀ j, j < k → ∀ obj', objs[j]? = some obj' →
        ¬ (obj'.active = true ∧ rayHitsSphere o d obj'.position obj'.radius = true) := by
  induction objs generalizing i with
  | nil => exact absurd rfl h
  | cons hd rest ih =>
    rw [CheckObjectClickLoop_cons] at h ⊢
    by_cases hP : hd.active = true ∧ rayHitsSphere o d hd.position hd.radius = true
    · rw [if_pos hP]
      exact ⟨0, hd, by simp, by simp, hP, fun j hj => absurd hj (Nat.not_lt_zero j)⟩
    · rw [if_neg hP] at h ⊢
      obtain ⟨k, obj, hres, hk, hobj, hlow⟩ := ih (i + 1) h
      refine ⟨k + 1, obj, ?_, by simpa using hk, hobj, ?_⟩
      · rw [hres]; push_cast; ring
      · intro j hj obj' hobj'
        cases j with
        | zero =>
          simp only [List.getElem?_cons_zero, Option.some.injEq] at hobj'
          subst hobj'
          exact hP
        | succ j =>
          exact hlow j (by omega) obj' (by simpa using hobj')

/-! ## Claims about picking -/

/-- C1: `CheckObjectClick` returns the index `i >= 0` exactly when `objects[i]`
is active and passes the ray-vs-sphere test of the specification and no object
of lower index is both active and passing; it returns `-1` exactly when no
active object passes. The result is always `-1` or a valid index; an empty
store and an all-inactive store give `-1`; when two active spheres are both hit
by the ray the result is an index not above the lower of the two, whatever
their distances. -/
theorem CheckObjectClick_first_active_hit (sqrt : α → α) (objects : List (GameObject α))
    (mouseX mouseY : α) (screenW screenH : ℤ) (view projection : Mat4 α) :
    (∀ i : ℕ,
      CheckObjectClick sqrt objects mouseX mouseY screenW screenH view projection = (i : ℤ) ↔
        ∃ obj, objects[i]? = some obj ∧ obj.active = true ∧
          specRayTest (rayOrigin view)
            (rayDirection sqrt mouseX mouseY screenW screenH view projection)
            obj.position obj.radius ∧
          ∀ j, j < i → ∀ obj', objects[j]? = some obj' →
            ¬ (obj'.active = true ∧
              specRayTest (rayOrigin view)
                (rayDirection sqrt mouseX mouseY screenW screenH view projection)
                obj'.position obj'.radius)) ∧
    (CheckObjectClick sqrt objects mouseX mouseY screenW screenH view projection = -1 ↔
      ∀ obj ∈ objects,
        ¬ (obj.active = true ∧
          specRayTest (rayOrigin view)
            (rayDirection sqrt mouseX mouseY screenW screenH view projection)
            obj.position obj.radius)) ∧
    (CheckObjectClick sqrt objects mouseX mouseY screenW screenH view projection = -1 ∨
      (0 ≤ CheckObjectClick sqrt objects mouseX mouseY screenW screenH view projection ∧
        CheckObjectClick sqrt objects mouseX mouseY screenW screenH view projection <
          objects.length)) ∧
    (objects = [] →
      CheckObjectClick sqrt objects mouseX mouseY screenW screenH view projection = -1) ∧
    ((∀ obj ∈ objects, obj.active = false) →
      CheckObjectClick sqrt objects mouseX mouseY screenW screenH view projection = -1) ∧
    (∀ (i j : ℕ) (oi oj : GameObject α), i < j →
      objects[i]? = some oi → objects[j]? = some oj →
      (oi.active = true ∧
        specRayTest (rayOrigin view)
          (rayDirection sqrt mouseX mouseY screenW screenH view projection)
          oi.position oi.radius) →
      (oj.active = true ∧
        specRayTest (rayOrigin view)
          (rayDirection sqrt mouseX mouseY screenW screenH view projection)
          oj.position oj.radius) →
      0 ≤ CheckObjectClick sqrt objects mouseX mouseY screenW screenH view projection ∧
      CheckObjectClick sqrt objects mouseX mouseY screenW screenH view projection ≤ (i : ℤ)) := by
  simp only [← rayHitsSphere_iff_specRayTest]
  unfold CheckObjectClick
  generalize rayOrigin view = o
  generalize rayDirection sqrt mouseX mouseY screenW screenH view projection = d
  have hrange := CheckObjectClickLoop_range o d objects 0
  have hfirst : ∀ i : ℕ, CheckObjectClickLoop o d objects 0 = (i : ℤ) ↔
      ∃ obj, objects[i]? = some obj ∧ obj.active = true ∧
        rayHitsSphere o d obj.position obj.radius = true ∧
        ∀ j, j < i → ∀ obj', objects[j]? = some obj' →
          ¬ (obj'.active = true ∧ rayHitsSphere o d obj'.position obj'.radius = true) := by
    intro i
    constructor
    · intro h
      have hne : CheckObjectClickLoop o d objects 0 ≠ -1 := by omega
      obtain ⟨k, obj, hres, hk, hobj, hlow⟩ := CheckObjectClickLoop_some o d objects 0 hne
      have hki : k = i := by omega
      subst hki
      exact ⟨obj, hk, hobj.1, hobj.2, hlow⟩
    · rintro ⟨obj, hk, ha, hh, hlow⟩
      rw [CheckObjectClickLoop_first o d objects 0 i obj hk ⟨ha, hh⟩ hlow]
      simp
  have hnone : CheckObjectClickLoop o d objects 0 = -1 ↔
      ∀ obj ∈ objects,
        ¬ (obj.active = true ∧ rayHitsSphere o d obj.position obj.radius = true) :=
    ⟨CheckObjectClickLoop_none o d objects 0 (le_refl 0),
      CheckObjectClickLoop_all_fail o d objects 0⟩
  refine ⟨hfirst, hnone, ?_, ?_, ?_, ?_⟩
  · rcases hrange with h | h
    · exact Or.inl h
    · exact Or.inr ⟨h.1, by simpa using h.2⟩
  · intro h
    subst h
    rfl
  · intro h
    exact hnone.2 (fun obj hobj hP => by simp [h obj hobj] at hP)
  · intro i j oi oj _ hi _ hPi _
    rcases hrange with h | h
    · exact absurd hPi (hnone.1 h oi (List.getElem?_mem hi))
    · obtain ⟨k, hk⟩ := Int.eq_ofNat_of_zero_le h.1
      obtain ⟨_, _, _, _, hlow⟩ := (hfirst k).1 hk
      refine ⟨h.1, ?_⟩
      rw [hk]
      by_contra hlt
      exact hlow i (by omega) oi hi hPi

/-- C10: for a unit direction `d` and a radius `r >= 0`, the per-object test of
`CheckObjectClick` accepts the sphere (neither `c > 0 and b > 0` nor
`b*b - c < 0` holds) exactly when the half-line `o + t*d`, `t >= 0`, meets the
closed ball of centre `p` and radius `r`. Hence a sphere entirely behind the
camera is never accepted and a sphere containing the camera always is. -/
theorem rayHitsSphere_iff_halfline_meets_ball (o d p : Vec3 α) (r : α)
    (hd : dot d d = 1) (_hr : 0 ≤ r) :
    (rayHitsSphere o d p r = true ↔
      ¬ (dot (o.sub p) (o.sub p) - r * r > 0 ∧ dot (o.sub p) d > 0) ∧
      ¬ (dot (o.sub p) d * dot (o.sub p) d - (dot (o.sub p) (o.sub p) - r * r) < 0)) ∧
    (rayHitsSphere o d p r = true ↔
      ∃ t : α, 0 ≤ t ∧
        dot ((o.add (d.smul t)).sub p) ((o.add (d.smul t)).sub p) ≤ r * r) ∧
    ((∀ q : Vec3 α, dot (q.sub p) (q.sub p) ≤ r * r → dot (q.sub o) d < 0) →
      rayHitsSphere o d p r = false) ∧
    (dot (o.sub p) (o.sub p) ≤ r * r → rayHitsSphere o d p r = true) := by
  refine ⟨rayHitsSphere_eq_true_iff o d p r, rayHitsSphere_iff_exists o d p r hd, ?_, ?_⟩
  · intro hbehind
    cases hhit : rayHitsSphere o d p r with
    | false => rfl
    | true =>
      obtain ⟨t, ht, hball⟩ := (rayHitsSphere_iff_exists o d p r hd).1 hhit
      have hneg := hbehind (o.add (d.smul t)) hball
      have hdot : dot ((o.add (d.smul t)).sub o) d = t * dot d d := by
        simp only [dot, Vec3.add, Vec3.sub, Vec3.smul]
        ring
      rw [hdot, hd] at hneg
      linarith
  · intro hin
    refine (rayHitsSphere_iff_exists o d p r hd).2 ⟨0, le_refl 0, ?_⟩
    rw [dot_ray_point]
    simpa using hin

/-- Witness for C10: the ray from `(0, 0, 5)` along `-Z` and the unit sphere at
the origin. -/
theorem rayHitsSphere_iff_halfline_meets_ball_witness :
    dot (⟨0, 0, -1⟩ : Vec3 ℚ) ⟨0, 0, -1⟩ = 1 ∧ (0 : ℚ) ≤ 1 ∧
      (rayHitsSphere (⟨0, 0, 5⟩ : Vec3 ℚ) ⟨0, 0, -1⟩ ⟨0, 0, 0⟩ 1 = true ↔
        ∃ t : ℚ, 0 ≤ t ∧
          dot (((⟨0, 0, 5⟩ : Vec3 ℚ).add ((⟨0, 0, -1⟩ : Vec3 ℚ).smul t)).sub ⟨0, 0, 0⟩)
            (((⟨0, 0, 5⟩ : Vec3 ℚ).add ((⟨0, 0, -1⟩ : Vec3 ℚ).smul t)).sub ⟨0, 0, 0⟩) ≤ 1 * 1) :=
  ⟨by norm_num [dot], by norm_num,
    (rayHitsSphere_iff_halfline_meets_ball (⟨0, 0, 5⟩ : Vec3 ℚ) ⟨0, 0, -1⟩ ⟨0, 0, 0⟩ 1
      (by norm_num [dot]) (by norm_num)).2.1⟩

end Picking

section Particles
variable {α : Type} [LinearOrderedField α]

theorem get_append_length {β : Type} (l1 : List β) (a : β) (l2 : List β)
    (h : l1.length < (l1 ++ a :: l2).length) :
    (l1 ++ a :: l2).get ⟨l1.length, h⟩ = a := by
  induction l1 with
  | nil => rfl
  | cons x xs ih => simpa using ih (by simp)

theorem set_append_length {β : Type} (l1 : List β) (a b : β) (l2 : List β) :
    (l1 ++ a :: l2).set l1.length b = l1 ++ b :: l2 := by
  induction l1 with
  | nil => rfl
  | cons x xs ih => simp [ih]

theorem eraseIdx_append_length {β : Type} (l1 : List β) (a : β) (l2 : List β) :
    (l1 ++ a :: l2).eraseIdx l1.length = l1 ++ l2 := by
  induction l1 with
  | nil => rfl
  | cons x xs ih => simp [ih]

/-- Loop invariant of `UpdateParticles`: with `l1` already processed and kept and
`l2` still to do, the loop returns `l1` followed by the stepped survivors of `l2`. -/
theorem UpdateParticlesLoop_append (deltaTime : α) (l2 l1 : List (Particle α)) :
    UpdateParticlesLoop deltaTime (l1 ++ l2) (l1.length : ℤ) =
      l1 ++ (l2.map (stepParticle deltaTime)).filter (fun p => !decide (p.life ≤ 0)) := by
  induction l2 generalizing l1 with
  | nil =>
    rw [UpdateParticlesLoop]
    simp
  | cons a l2 ih =>
    rw [UpdateParticlesLoop]
    have hlt : (0 : ℤ) ≤ (l1.length : ℤ) ∧ (l1.length : ℤ) < ((l1 ++ a :: l2).length : ℤ) := by
      constructor
      · omega
      · simp only [List.length_append, List.length_cons]
        omega
    rw [dif_pos hlt]
    simp only [Int.toNat_ofNat, get_append_length, set_append_length, eraseIdx_append_length]
    by_cases hlife : (stepParticle deltaTime a).life ≤ 0
    · rw [if_pos hlife]
      have hi : (l1.length : ℤ) - 1 + 1 = (l1.length : ℤ) := by ring
      rw [hi, ih l1]
      simp [hlife]
    · rw [if_neg hlife]
      have hi : (l1.length : ℤ) + 1 = ((l1 ++ [stepParticle deltaTime a]).length : ℤ) := by
        simp
      have hl : l1 ++ stepParticle deltaTime a :: l2 = (l1 ++ [stepParticle deltaTime a]) ++ l2 := by
        simp
      rw [hi, hl, ih (l1 ++ [stepParticle deltaTime a])]
      simp [hlife]

/-- C2: `UpdateParticles` produces the list obtained by replacing every particle
by `(position + velocity*deltaTime, velocity, life - 1.5*deltaTime)` and then
keeping, in their original order, exactly those whose new life is `> 0`. -/
theorem UpdateParticles_eq_filter_map (deltaTime : α) (particles : List (Particle α)) :
    UpdateParticles deltaTime particles =
      (particles.map (fun p =>
        ({ position := p.position.add (p.velocity.smul deltaTime)
           velocity := p.velocity
           life := p.life - (3 / 2) * deltaTime } : Particle α))).filter
        (fun q => decide (q.life > 0)) := by
  have h := UpdateParticlesLoop_append deltaTime particles []
  simp only [List.nil_append, List.length_nil, Nat.cast_zero] at h
  unfold UpdateParticles
  rw [h]
  have hstep : stepParticle deltaTime = (fun p : Particle α =>
      ({ position := p.position.add (p.velocity.smul deltaTime)
         velocity := p.velocity
         life := p.life - (3 / 2) * deltaTime } : Particle α)) := by
    funext p
    simp only [stepParticle, mul_comm]
  rw [hstep]
  congr 1
  funext q
  by_cases hq : q.life ≤ 0
  · simp [hq, not_lt.2 hq]
  · simp [hq, not_le.1 hq]
end Particles

section Spawning
variable {α : Type} [LinearOrderedField α]

/-- The burst loop with `n` iterations left appends `n` particles, drawing three
`rand()` values per particle. -/
theorem SpawnExplosionLoop_eq (rnd : ℕ → ℤ) (center : Vec3 α) (n : ℕ) :
    ∀ (i : ℤ) (particles : List (Particle α)) (k : ℕ), (20 - i).toNat = n →
      SpawnExplosionLoop rnd center i particles k =
        (particles ++ (List.range n).map (fun j => burstParticle rnd center (k + 3 * j)),
          k + 3 * n) := by
  induction n with
  | zero =>
    intro i particles k hn
    rw [SpawnExplosionLoop, if_neg (by omega)]
    simp
  | succ n ih =>
    intro i particles k hn
    rw [SpawnExplosionLoop, if_pos (by omega), ih (i + 1) _ (k + 3) (by omega)]
    rw [List.range_succ_eq_map]
    simp only [List.map_cons, List.map_map, List.append_assoc, List.singleton_append,
      Nat.mul_zero, Nat.add_zero]
    refine Prod.ext ?_ (by simp only []; omega)
    simp only []
    congr 2
    apply List.map_congr_left
    intro j _
    simp only [Function.comp]
    congr 1
    omega

/-- The spawn loop with `n` iterations left appends `n` objects, drawing four
`rand()` values and one texture handle per object. -/
theorem SpawnObjectsLoop_eq (pi : α) (rnd : ℕ → ℤ) (tex : ℕ → ℕ) (target : ℤ) (spread : α)
    (n : ℕ) :
    ∀ (i : ℤ) (objects : List (GameObject α)) (k t : ℕ), (target - i).toNat = n →
      SpawnObjectsLoop pi rnd tex target spread i objects k t =
        (objects ++ (List.range n).map
            (fun j => spawnObject pi rnd spread (k + 4 * j) (tex (t + j))),
          k + 4 * n, t + n) := by
  induction n with
  | zero =>
    intro i objects k t hn
    rw [SpawnObjectsLoop, if_neg (by omega)]
    simp
  | succ n ih =>
    intro i objects k t hn
    rw [SpawnObjectsLoop, if_pos (by omega), ih (i + 1) _ (k + 4) (t + 1) (by omega)]
    rw [List.range_succ_eq_map]
    simp only [List.map_cons, List.map_map, List.append_assoc, List.singleton_append,
      Nat.mul_zero, Nat.add_zero]
    refine Prod.ext ?_ (Prod.ext (by simp only []; omega) (by simp only []; omega))
    simp only []
    congr 2
    apply List.map_congr_left
    intro j _
    simp only [Function.comp]
    have h1 : k + 4 + 4 * j = k + 4 * (j + 1) := by omega
    have h2 : t + 1 + j = t + (j + 1) := by omega
    rw [h1, h2]

theorem spawn_coordinate_bounds (r : ℤ) (hr : 0 ≤ r) (s : α) (hs : 0 ≤ s) :
    -s ≤ (((r.tmod 100 : ℤ) : α) / 50 - 1) * s ∧ (((r.tmod 100 : ℤ) : α) / 50 - 1) * s ≤ s := by
  have h0 : (0 : ℤ) ≤ r.tmod 100 := Int.tmod_nonneg 100 hr
  have h1 : r.tmod 100 < 100 := Int.tmod_lt_of_pos r (by norm_num)
  have h0' : (0 : α) ≤ ((r.tmod 100 : ℤ) : α) := by exact_mod_cast h0
  have h1' : ((r.tmod 100 : ℤ) : α) ≤ 100 := by exact_mod_cast le_of_lt h1
  have ha : -1 ≤ ((r.tmod 100 : ℤ) : α) / 50 - 1 := by
    have : (0 : α) ≤ ((r.tmod 100 : ℤ) : α) / 50 := div_nonneg h0' (by norm_num)
    linarith
  have hb : ((r.tmod 100 : ℤ) : α) / 50 - 1 ≤ 1 := by
    have : ((r.tmod 100 : ℤ) : α) / 50 ≤ 2 := by
      rw [div_le_iff₀ (by norm_num)]
      linarith
    linarith
  constructor
  · nlinarith [mul_nonneg (by linarith : (0 : α) ≤ ((r.tmod 100 : ℤ) : α) / 50 - 1 + 1) hs]
  · nlinarith [mul_nonneg (by linarith : (0 : α) ≤ 1 - (((r.tmod 100 : ℤ) : α) / 50 - 1)) hs]

/-- C8: for a target count `n >= 0`, a spread `s >= 0`, any prior store and any
non-negative `rand()` values, `SpawnObjects` leaves exactly `n` objects, the
same ones as from an empty prior store, all active, with every position
component in `[-s, s]`. -/
theorem SpawnObjects_count_active_within_spread (pi : α) (rnd : ℕ → ℤ) (tex : ℕ → ℕ)
    (n : ℤ) (s : α) (prior : List (GameObject α)) (randCalls texCalls : ℕ)
    (hn : 0 ≤ n) (hs : 0 ≤ s) (hrnd : ∀ k, 0 ≤ rnd k) :
    ((SpawnObjects pi rnd tex n s prior randCalls texCalls).1.length : ℤ) = n ∧
    (SpawnObjects pi rnd tex n s prior randCalls texCalls).1 =
      (SpawnObjects pi rnd tex n s [] randCalls texCalls).1 ∧
    ∀ obj ∈ (SpawnObjects pi rnd tex n s prior randCalls texCalls).1,
      obj.active = true ∧
      (-s ≤ obj.position.x ∧ obj.position.x ≤ s) ∧
      (-s ≤ obj.position.y ∧ obj.position.y ≤ s) ∧
      (-s ≤ obj.position.z ∧ obj.position.z ≤ s) := by
  unfold SpawnObjects
  rw [SpawnObjectsLoop_eq pi rnd tex n s (n - 0).toNat 0 [] randCalls texCalls rfl]
  refine ⟨?_, rfl, ?_⟩
  · simp only [List.nil_append, List.length_map, List.length_range]
    omega
  · intro obj hobj
    simp only [List.nil_append, List.mem_map, List.mem_range] at hobj
    obtain ⟨j, _, rfl⟩ := hobj
    exact ⟨rfl, spawn_coordinate_bounds _ (hrnd _) s hs,
      spawn_coordinate_bounds _ (hrnd _) s hs, spawn_coordinate_bounds _ (hrnd _) s hs⟩

/-- Witness for C8: two objects with spread 5 over the rationals. -/
theorem SpawnObjects_count_active_within_spread_witness :
    (0 : ℤ) ≤ 2 ∧ (0 : ℚ) ≤ 5 ∧ (∀ k : ℕ, (0 : ℤ) ≤ 50 + 7 * (k : ℤ)) ∧
      ((SpawnObjects (355 / 113 : ℚ) (fun k => 50 + 7 * (k : ℤ)) (fun k => k + 1) 2 5
        [] 0 0).1.length : ℤ) = 2 :=
  ⟨by norm_num, by norm_num, fun k => by positivity,
    (SpawnObjects_count_active_within_spread (355 / 113 : ℚ) (fun k => 50 + 7 * (k : ℤ))
      (fun k => k + 1) 2 5 [] 0 0 (by norm_num) (by norm_num) (fun k => by positivity)).1⟩

theorem SpawnExplosion_burst (rnd : ℕ → ℤ) (center : Vec3 α)
    (particles : List (Particle α)) (randCalls : ℕ) :
    ∃ burst : List (Particle α),
      (SpawnExplosion rnd center particles randCalls).1 = particles ++ burst ∧
      burst.length = 20 ∧
      ∀ p ∈ burst, p.position = center ∧ p.life = 1 := by
  refine ⟨(List.range 20).map (fun j => burstParticle rnd center (randCalls + 3 * j)), ?_, ?_, ?_⟩
  · unfold SpawnExplosion
    rw [SpawnExplosionLoop_eq rnd center 20 0 particles randCalls rfl]
  · simp
  · intro p hp
    simp only [List.mem_map, List.mem_range] at hp
    obtain ⟨j, _, rfl⟩ := hp
    exact ⟨rfl, rfl⟩

/-- C9: `SpawnExplosion` leaves the particle list equal to the prior list
followed by exactly 20 new particles, each at `center` with life `1.0`. -/
theorem SpawnExplosion_appends_twenty (rnd : ℕ → ℤ) (center : Vec3 α)
    (particles : List (Particle α)) (randCalls : ℕ) :
    ∃ burst : List (Particle α),
      (SpawnExplosion rnd center particles randCalls).1 = particles ++ burst ∧
      burst.length = 20 ∧
      ∀ p ∈ burst, p.position = center ∧ p.life = 1 :=
  SpawnExplosion_burst rnd center particles randCalls

end Spawning

/-! ## Picking through the camera of `main` -/

section MatrixInverse
variable {α : Type} [LinearOrderedField α]

/-- `glm::inverse` of a view matrix that rotates about the x axis and translates
along the view direction. -/
theorem inverse_rot_x (p q l : α) (h : p * p + q * q = 1) :
    inverse (⟨⟨1, 0, 0, 0⟩, ⟨0, p, q, 0⟩, ⟨0, -q, p, 0⟩, ⟨0, 0, -l, 1⟩⟩ : Mat4 α) =
      ⟨⟨1, 0, 0, 0⟩, ⟨0, p, -q, 0⟩, ⟨0, q, p, 0⟩, ⟨0, q * l, p * l, 1⟩⟩ := by
  simp only [inverse, Mat4.smul, Vec4.smul, Vec4.mul, Vec4.add, Vec4.sub]
  have hdet : (1 : α) * ((p * (p * 1 - -l * 0) - q * (-q * 1 - 0 * 0) + 0 * (-q * -l - 0 * p)) * 1) +
      0 * ((0 * (p * 1 - -l * 0) - q * (0 * 1 - 0 * 0) + 0 * (0 * -l - 0 * p)) * -1) +
      (0 * ((0 * (-q * 1 - 0 * 0) - p * (0 * 1 - 0 * 0) + 0 * (0 * 0 - 0 * -q)) * 1) +
      0 * ((0 * (-q * -l - 0 * p) - p * (0 * -l - 0 * p) + q * (0 * 0 - 0 * -q)) * -1)) = 1 := by
    linear_combination h
  rw [hdet]
  congr 1 <;> congr 1 <;>
    first
    | ring1
    | linear_combination h

/-- The x and y components of `inverse(projection) * (x, y, -1, 1)` for a matrix of
the shape `glm::perspective` returns. -/
theorem inverse_frustum_mulVec (a b c e x y : α) (ha : a ≠ 0) (hb : b ≠ 0) (he : e ≠ 0) :
    ((inverse (⟨⟨a, 0, 0, 0⟩, ⟨0, b, 0, 0⟩, ⟨0, 0, c, -1⟩, ⟨0, 0, e, 0⟩⟩ : Mat4 α)).mulVec
        ⟨x, y, -1, 1⟩).x = x / a ∧
    ((inverse (⟨⟨a, 0, 0, 0⟩, ⟨0, b, 0, 0⟩, ⟨0, 0, c, -1⟩, ⟨0, 0, e, 0⟩⟩ : Mat4 α)).mulVec
        ⟨x, y, -1, 1⟩).y = y / b := by
  simp only [inverse, Mat4.smul, Mat4.mulVec, Vec4.smul, Vec4.mul, Vec4.add, Vec4.sub]
  constructor
  · field_simp
    ring
  · field_simp
    ring

end MatrixInverse

section ViewMatrix
open Real

theorem normalize_eye_yz (ey ez : ℝ) :
    normalize Real.sqrt ((⟨0, 0, 0⟩ : Vec3 ℝ).sub ⟨0, ey, ez⟩) =
      ⟨0, -ey / √(ey * ey + ez * ez), -ez / √(ey * ey + ez * ez)⟩ := by
  simp only [normalize, inversesqrt, dot, Vec3.sub, Vec3.smul]
  have h : (0 - 0 : ℝ) * (0 - 0) + (0 - ey) * (0 - ey) + (0 - ez) * (0 - ez) =
      ey * ey + ez * ez := by ring
  rw [h]
  congr 1 <;> ring

theorem normalize_cross_up (ey ez : ℝ) (hez : 0 < ez) :
    normalize Real.sqrt
        (cross (⟨0, -ey / √(ey * ey + ez * ez), -ez / √(ey * ey + ez * ez)⟩ : Vec3 ℝ)
          ⟨0, 1, 0⟩) = ⟨1, 0, 0⟩ := by
  have hL : 0 < √(ey * ey + ez * ez) := Real.sqrt_pos.2 (by nlinarith [mul_self_nonneg ey])
  simp only [normalize, inversesqrt, dot, cross, Vec3.smul]
  have h : ((-ey / √(ey * ey + ez * ez)) * 0 - 1 * (-ez / √(ey * ey + ez * ez))) *
        ((-ey / √(ey * ey + ez * ez)) * 0 - 1 * (-ez / √(ey * ey + ez * ez))) +
      ((-ez / √(ey * ey + ez * ez)) * 0 - 0 * 0) * ((-ez / √(ey * ey + ez * ez)) * 0 - 0 * 0) +
      (0 * 1 - 0 * (-ey / √(ey * ey + ez * ez))) * (0 * 1 - 0 * (-ey / √(ey * ey + ez * ez))) =
      (ez / √(ey * ey + ez * ez)) * (ez / √(ey * ey + ez * ez)) := by ring
  rw [h, Real.sqrt_mul_self (le_of_lt (div_pos hez hL))]
  congr 1
  · field_simp
  · ring
  · ring

/-- The matrix `glm::lookAt` returns for an eye in the half-plane `x = 0`, `z > 0`
looking at the origin with up `(0, 1, 0)`. -/
theorem lookAt_eye_yz (ey ez : ℝ) (hez : 0 < ez) :
    lookAt Real.sqrt ⟨0, ey, ez⟩ ⟨0, 0, 0⟩ ⟨0, 1, 0⟩ =
      ⟨⟨1, 0, 0, 0⟩,
       ⟨0, ez / √(ey * ey + ez * ez), ey / √(ey * ey + ez * ez), 0⟩,
       ⟨0, -(ey / √(ey * ey + ez * ez)), ez / √(ey * ey + ez * ez), 0⟩,
       ⟨0, 0, -√(ey * ey + ez * ez), 1⟩⟩ := by
  have hL : 0 < √(ey * ey + ez * ez) := Real.sqrt_pos.2 (by nlinarith [mul_self_nonneg ey])
  have hLL : √(ey * ey + ez * ez) * √(ey * ey + ez * ez) = ey * ey + ez * ez :=
    Real.mul_self_sqrt (by nlinarith [mul_self_nonneg ey, mul_self_nonneg ez])
  unfold lookAt
  simp only [normalize_eye_yz ey ez, normalize_cross_up ey ez hez]
  simp only [cross, dot]
  generalize √(ey * ey + ez * ez) = L at hL hLL
  have hne : L ≠ 0 := ne_of_gt hL
  congr 1
  · congr 1 <;> ring
  · congr 1 <;> ring
  · congr 1 <;> ring
  · congr 1
    · ring
    · ring
    · rw [div_mul_eq_mul_div, div_mul_eq_mul_div, zero_mul, zero_add, ← add_div,
        div_eq_iff hne]
      linear_combination hLL

theorem inverse_lookAt_eye_yz (ey ez : ℝ) (hez : 0 < ez) :
    inverse (lookAt Real.sqrt ⟨0, ey, ez⟩ ⟨0, 0, 0⟩ ⟨0, 1, 0⟩) =
      ⟨⟨1, 0, 0, 0⟩,
       ⟨0, ez / √(ey * ey + ez * ez), -(ey / √(ey * ey + ez * ez)), 0⟩,
       ⟨0, ey / √(ey * ey + ez * ez), ez / √(ey * ey + ez * ez), 0⟩,
       ⟨0, ey, ez, 1⟩⟩ := by
  have hL : 0 < √(ey * ey + ez * ez) := Real.sqrt_pos.2 (by nlinarith [mul_self_nonneg ey])
  have hLL : √(ey * ey + ez * ez) * √(ey * ey + ez * ez) = ey * ey + ez * ez :=
    Real.mul_self_sqrt (by nlinarith [mul_self_nonneg ey, mul_self_nonneg ez])
  have hne : √(ey * ey + ez * ez) ≠ 0 := ne_of_gt hL
  have hpq : ez / √(ey * ey + ez * ez) * (ez / √(ey * ey + ez * ez)) +
      ey / √(ey * ey + ez * ez) * (ey / √(ey * ey + ez * ez)) = 1 := by
    rw [div_mul_div_comm, div_mul_div_comm, ← add_div, hLL, div_eq_one_iff_eq (by rw [← hLL]; positivity)]
    ring
  rw [lookAt_eye_yz ey ez hez, inverse_rot_x _ _ _ hpq]
  congr 2
  · exact div_mul_cancel₀ ey hne
  · exact div_mul_cancel₀ ez hne

theorem rayOrigin_lookAt_eye_yz (ey ez : ℝ) (hez : 0 < ez) :
    rayOrigin (lookAt Real.sqrt ⟨0, ey, ez⟩ ⟨0, 0, 0⟩ ⟨0, 1, 0⟩) = ⟨0, ey, ez⟩ := by
  rw [rayOrigin, inverse_lookAt_eye_yz ey ez hez]
  rfl

/-- The ray direction of `CheckObjectClick` for that camera and a perspective
projection, before the last normalisation is carried out. -/
theorem rayDirection_lookAt_perspective (ey ez : ℝ) (hez : 0 < ez)
    (fovy aspect zNear zFar : ℝ) (hT : Real.tan (fovy / 2) ≠ 0) (ha : aspect ≠ 0)
    (hn : zNear ≠ 0) (hf : zFar ≠ 0) (hnf : zFar - zNear ≠ 0)
    (mouseX mouseY : ℝ) (screenW screenH : ℤ) :
    rayDirection Real.sqrt mouseX mouseY screenW screenH
        (lookAt Real.sqrt ⟨0, ey, ez⟩ ⟨0, 0, 0⟩ ⟨0, 1, 0⟩)
        (perspective Real.tan fovy aspect zNear zFar) =
      normalize Real.sqrt
        ⟨(2 * mouseX / (screenW : ℝ) - 1) * (aspect * Real.tan (fovy / 2)),
         (1 - 2 * mouseY / (screenH : ℝ)) * Real.tan (fovy / 2) *
             (ez / √(ey * ey + ez * ez)) - ey / √(ey * ey + ez * ez),
         -((1 - 2 * mouseY / (screenH : ℝ)) * Real.tan (fovy / 2) *
             (ey / √(ey * ey + ez * ez))) - ez / √(ey * ey + ez * ez)⟩ := by
  have he : -(2 * zFar * zNear) / (zFar - zNear) ≠ 0 := by
    apply div_ne_zero _ hnf
    simp [hn, hf]
  have hA : (1 : ℝ) / (aspect * Real.tan (fovy / 2)) ≠ 0 :=
    one_div_ne_zero (mul_ne_zero ha hT)
  have hB : (1 : ℝ) / Real.tan (fovy / 2) ≠ 0 := one_div_ne_zero hT
  have hP := inverse_frustum_mulVec (1 / (aspect * Real.tan (fovy / 2)))
    (1 / Real.tan (fovy / 2)) (-(zFar + zNear) / (zFar - zNear))
    (-(2 * zFar * zNear) / (zFar - zNear)) (2 * mouseX / (screenW : ℝ) - 1)
    (1 - 2 * mouseY / (screenH : ℝ)) hA hB he
  unfold rayDirection
  simp only [perspective]
  rw [hP.1, hP.2, inverse_lookAt_eye_yz ey ez hez]
  simp only [Mat4.mulVec, Vec4.smul, Vec4.add, Vec4.xyz]
  simp only [div_div_eq_mul_div, div_one]
  congr 2 <;> ring1

end ViewMatrix

section CentreRay
open Real

theorem rayDirection_centre (ey ez : ℝ) (hez : 0 < ez)
    (fovy aspect zNear zFar : ℝ) (hT : Real.tan (fovy / 2) ≠ 0) (ha : aspect ≠ 0)
    (hn : zNear ≠ 0) (hf : zFar ≠ 0) (hnf : zFar - zNear ≠ 0)
    (screenW screenH : ℤ) (hw : screenW ≠ 0) (hh : screenH ≠ 0) :
    rayDirection Real.sqrt ((screenW : ℝ) / 2) ((screenH : ℝ) / 2) screenW screenH
        (lookAt Real.sqrt ⟨0, ey, ez⟩ ⟨0, 0, 0⟩ ⟨0, 1, 0⟩)
        (perspective Real.tan fovy aspect zNear zFar) =
      ⟨0, -(ey / √(ey * ey + ez * ez)), -(ez / √(ey * ey + ez * ez))⟩ := by
  have hL : 0 < √(ey * ey + ez * ez) := Real.sqrt_pos.2 (by nlinarith [mul_self_nonneg ey])
  have hLL : √(ey * ey + ez * ez) * √(ey * ey + ez * ez) = ey * ey + ez * ez :=
    Real.mul_self_sqrt (by nlinarith [mul_self_nonneg ey, mul_self_nonneg ez])
  have hw' : (screenW : ℝ) ≠ 0 := by exact_mod_cast hw
  have hh' : (screenH : ℝ) ≠ 0 := by exact_mod_cast hh
  rw [rayDirection_lookAt_perspective ey ez hez fovy aspect zNear zFar hT ha hn hf hnf]
  have hx : 2 * ((screenW : ℝ) / 2) / (screenW : ℝ) - 1 = 0 := by field_simp
  have hy : 1 - 2 * ((screenH : ℝ) / 2) / (screenH : ℝ) = 0 := by field_simp
  rw [hx, hy]
  simp only [zero_mul, zero_sub, neg_zero]
  simp only [normalize, inversesqrt, dot, Vec3.smul]
  have hone : (0 : ℝ) * 0 + -(ey / √(ey * ey + ez * ez)) * -(ey / √(ey * ey + ez * ez)) +
      -(ez / √(ey * ey + ez * ez)) * -(ez / √(ey * ey + ez * ez)) = 1 := by
    field_simp
    linear_combination -hLL
  rw [hone, Real.sqrt_one]
  simp

/-- A click at the viewport centre picks a first object that is active and sits at
the look-at target, whatever its radius. -/
theorem centre_ray_hits_origin_sphere (ey ez : ℝ) (hez : 0 < ez)
    (fovy aspect zNear zFar : ℝ) (hT : Real.tan (fovy / 2) ≠ 0) (ha : aspect ≠ 0)
    (hn : zNear ≠ 0) (hf : zFar ≠ 0) (hnf : zFar - zNear ≠ 0)
    (screenW screenH : ℤ) (hw : screenW ≠ 0) (hh : screenH ≠ 0)
    (obj : GameObject ℝ) (rest : List (GameObject ℝ))
    (hact : obj.active = true) (hpos : obj.position = ⟨0, 0, 0⟩) :
    CheckObjectClick Real.sqrt (obj :: rest) ((screenW : ℝ) / 2) ((screenH : ℝ) / 2)
        screenW screenH (lookAt Real.sqrt ⟨0, ey, ez⟩ ⟨0, 0, 0⟩ ⟨0, 1, 0⟩)
        (perspective Real.tan fovy aspect zNear zFar) = 0 := by
  have hL : 0 < √(ey * ey + ez * ez) := Real.sqrt_pos.2 (by nlinarith [mul_self_nonneg ey])
  have hLL : √(ey * ey + ez * ez) * √(ey * ey + ez * ez) = ey * ey + ez * ez :=
    Real.mul_self_sqrt (by nlinarith [mul_self_nonneg ey, mul_self_nonneg ez])
  unfold CheckObjectClick
  rw [rayOrigin_lookAt_eye_yz ey ez hez,
    rayDirection_centre ey ez hez fovy aspect zNear zFar hT ha hn hf hnf screenW screenH hw hh,
    CheckObjectClickLoop_cons, if_pos]
  refine ⟨hact, ?_⟩
  rw [rayHitsSphere_eq_true_iff, hpos]
  simp only [dot, Vec3.sub, sub_zero, zero_mul, zero_add]
  have hb : ey * -(ey / √(ey * ey + ez * ez)) + ez * -(ez / √(ey * ey + ez * ez)) =
      -√(ey * ey + ez * ez) := by
    field_simp
    linear_combination √(ey * ey + ez * ez) * hLL
  rw [hb]
  constructor
  · rintro ⟨_, h2⟩
    linarith
  · have : -√(ey * ey + ez * ez) * -√(ey * ey + ez * ez) = ey * ey + ez * ez := by
      linear_combination hLL
    rw [this]
    nlinarith [mul_self_nonneg obj.radius]

end CentreRay

section CornerRay
open Real

theorem rayDirection_corner (D : ℝ) (hD : 0 < D)
    (fovy aspect zNear zFar : ℝ) (hT : Real.tan (fovy / 2) ≠ 0) (ha : aspect ≠ 0)
    (hn : zNear ≠ 0) (hf : zFar ≠ 0) (hnf : zFar - zNear ≠ 0)
    (screenW screenH : ℤ) (hw : screenW ≠ 0) :
    rayDirection Real.sqrt (screenW : ℝ) 0 screenW screenH
        (lookAt Real.sqrt ⟨0, 0, D⟩ ⟨0, 0, 0⟩ ⟨0, 1, 0⟩)
        (perspective Real.tan fovy aspect zNear zFar) =
      normalize Real.sqrt ⟨aspect * Real.tan (fovy / 2), Real.tan (fovy / 2), -1⟩ := by
  have hw' : (screenW : ℝ) ≠ 0 := by exact_mod_cast hw
  rw [rayDirection_lookAt_perspective 0 D hD fovy aspect zNear zFar hT ha hn hf hnf]
  have hL : √(0 * 0 + D * D) = D := by
    rw [zero_mul, zero_add, Real.sqrt_mul_self (le_of_lt hD)]
  have hx : 2 * (screenW : ℝ) / (screenW : ℝ) - 1 = 1 := by field_simp; ring
  rw [hL, hx, div_self (ne_of_gt hD)]
  simp

/-- The result of a click at the corner `(width, 0)` for the camera at `(0, 0, D)`:
a hit exactly when `(D^2 - r^2) * tan(fovy/2)^2 * (1 + aspect^2) <= r^2`. -/
theorem corner_ray_result (D : ℝ) (hD : 0 < D)
    (fovy aspect zNear zFar : ℝ) (hT : 0 < Real.tan (fovy / 2)) (ha : aspect ≠ 0)
    (hn : zNear ≠ 0) (hf : zFar ≠ 0) (hnf : zFar - zNear ≠ 0)
    (screenW screenH : ℤ) (hw : screenW ≠ 0)
    (obj : GameObject ℝ) (hact : obj.active = true) (hpos : obj.position = ⟨0, 0, 0⟩) :
    CheckObjectClick Real.sqrt [obj] (screenW : ℝ) 0 screenW screenH
        (lookAt Real.sqrt ⟨0, 0, D⟩ ⟨0, 0, 0⟩ ⟨0, 1, 0⟩)
        (perspective Real.tan fovy aspect zNear zFar) =
      if (D * D - obj.radius * obj.radius) *
          (Real.tan (fovy / 2) * Real.tan (fovy / 2)) * (1 + aspect * aspect) ≤
          obj.radius * obj.radius then 0 else -1 := by
  unfold CheckObjectClick
  rw [rayOrigin_lookAt_eye_yz 0 D hD,
    rayDirection_corner D hD fovy aspect zNear zFar (ne_of_gt hT) ha hn hf hnf screenW screenH hw,
    CheckObjectClickLoop_cons]
  have hiff : (obj.active = true ∧
      rayHitsSphere (⟨0, 0, D⟩ : Vec3 ℝ)
        (normalize Real.sqrt ⟨aspect * Real.tan (fovy / 2), Real.tan (fovy / 2), -1⟩)
        obj.position obj.radius = true) ↔
      (D * D - obj.radius * obj.radius) *
          (Real.tan (fovy / 2) * Real.tan (fovy / 2)) * (1 + aspect * aspect) ≤
          obj.radius * obj.radius := by
    rw [rayHitsSphere_eq_true_iff, hpos]
    simp only [hact, true_and, normalize, inversesqrt, dot, Vec3.sub, Vec3.smul, sub_zero,
      zero_mul, zero_add]
    generalize Real.tan (fovy / 2) = T at hT
    generalize obj.radius = r
    have hN2 : 0 < aspect * T * (aspect * T) + T * T + -1 * -1 := by
      nlinarith [mul_self_nonneg (aspect * T), mul_self_nonneg T]
    have hN : 0 < √(aspect * T * (aspect * T) + T * T + -1 * -1) := Real.sqrt_pos.2 hN2
    have hNN : √(aspect * T * (aspect * T) + T * T + -1 * -1) *
        √(aspect * T * (aspect * T) + T * T + -1 * -1) =
        aspect * T * (aspect * T) + T * T + -1 * -1 := Real.mul_self_sqrt (le_of_lt hN2)
    generalize √(aspect * T * (aspect * T) + T * T + -1 * -1) = N at hN hNN
    have hb : D * (-1 * (1 / N)) = -(D / N) := by ring
    rw [hb]
    have hbneg : -(D / N) < 0 := by
      have : 0 < D / N := div_pos hD hN
      linarith
    have hsq : -(D / N) * -(D / N) = D * D / (N * N) := by
      field_simp
    rw [hsq]
    constructor
    · rintro ⟨_, h2⟩
      have h3 := le_of_not_lt h2
      have h4 : 0 ≤ D * D - (D * D - r * r) * (N * N) := by
        have h5 : D * D / (N * N) - (D * D - r * r) =
            (D * D - (D * D - r * r) * (N * N)) / (N * N) := by
          field_simp
          ring
        rw [h5] at h3
        exact (div_nonneg_iff.1 h3).elim (fun h => h.1)
          (fun h => absurd h.2 (not_le.2 (mul_pos hN hN)))
      rw [hNN] at h4
      linarith
    · intro h
      refine ⟨fun hc => by linarith [hc.2], ?_⟩
      rw [not_lt]
      have h5 : D * D / (N * N) - (D * D - r * r) =
          (D * D - (D * D - r * r) * (N * N)) / (N * N) := by
        field_simp
        ring
      rw [h5]
      apply div_nonneg _ (le_of_lt (mul_pos hN hN))
      rw [hNN]
      linarith
  by_cases hc : (D * D - obj.radius * obj.radius) *
          (Real.tan (fovy / 2) * Real.tan (fovy / 2)) * (1 + aspect * aspect) ≤
          obj.radius * obj.radius
  · rw [if_pos hc, if_pos (hiff.2 hc)]
  · rw [if_neg hc, if_neg (fun h => hc (hiff.1 h))]
    rfl

end CornerRay

section FieldOfView
open Real

/-- The field of view at which the corner ray is tangent to the sphere: the hit
condition holds up to it and fails beyond it. -/
theorem corner_threshold (D r aspect : ℝ) (hr : 0 < r) (hDr : r < D) :
    ∃ t : ℝ, 0 < t ∧ t < π ∧
      (∀ fovy : ℝ, 0 < fovy → fovy ≤ t →
        0 < Real.tan (fovy / 2) ∧
        (D * D - r * r) * (Real.tan (fovy / 2) * Real.tan (fovy / 2)) * (1 + aspect * aspect) ≤
          r * r) ∧
      (∀ fovy : ℝ, t < fovy → fovy < π →
        0 < Real.tan (fovy / 2) ∧
        ¬ ((D * D - r * r) * (Real.tan (fovy / 2) * Real.tan (fovy / 2)) *
            (1 + aspect * aspect) ≤ r * r)) := by
  have hM : 0 < (D * D - r * r) * (1 + aspect * aspect) := by
    apply mul_pos
    · nlinarith
    · nlinarith [mul_self_nonneg aspect]
  have hK : 0 < r * r / ((D * D - r * r) * (1 + aspect * aspect)) :=
    div_pos (mul_pos hr hr) hM
  have hS : 0 < √(r * r / ((D * D - r * r) * (1 + aspect * aspect))) := Real.sqrt_pos.2 hK
  have hSS : √(r * r / ((D * D - r * r) * (1 + aspect * aspect))) *
      √(r * r / ((D * D - r * r) * (1 + aspect * aspect))) =
      r * r / ((D * D - r * r) * (1 + aspect * aspect)) := Real.mul_self_sqrt (le_of_lt hK)
  generalize √(r * r / ((D * D - r * r) * (1 + aspect * aspect))) = S at hS hSS
  have hpi := Real.pi_pos
  have hA0 : 0 < Real.arctan S := by
    rw [← Real.arctan_zero]
    exact Real.arctan_strictMono hS
  have hA1 := Real.arctan_lt_pi_div_two S
  refine ⟨2 * Real.arctan S, by linarith, by linarith, ?_, ?_⟩
  · intro fovy h0 h1
    have hT : 0 < Real.tan (fovy / 2) :=
      Real.tan_pos_of_pos_of_lt_pi_div_two (by linarith) (by linarith)
    refine ⟨hT, ?_⟩
    have hle : Real.tan (fovy / 2) ≤ S := by
      rw [← Real.tan_arctan S]
      exact (Real.strictMonoOn_tan.le_iff_le ⟨by linarith, by linarith⟩
        ⟨by linarith, hA1⟩).2 (by linarith)
    have hsq : Real.tan (fovy / 2) * Real.tan (fovy / 2) ≤
        r * r / ((D * D - r * r) * (1 + aspect * aspect)) := by
      rw [← hSS]
      exact mul_self_le_mul_self (le_of_lt hT) hle
    rw [le_div_iff₀ hM] at hsq
    linarith
  · intro fovy h0 h1
    have hT : 0 < Real.tan (fovy / 2) :=
      Real.tan_pos_of_pos_of_lt_pi_div_two (by linarith) (by linarith)
    refine ⟨hT, ?_⟩
    have hlt : S < Real.tan (fovy / 2) := by
      rw [← Real.tan_arctan S]
      exact Real.tan_lt_tan_of_lt_of_lt_pi_div_two (by linarith) (by linarith) (by linarith)
    have hsq : r * r / ((D * D - r * r) * (1 + aspect * aspect)) <
        Real.tan (fovy / 2) * Real.tan (fovy / 2) := by
      rw [← hSS]
      exact mul_self_lt_mul_self (le_of_lt hS) hlt
    rw [div_lt_iff₀ hM] at hsq
    intro hcontra
    linarith

/-- C6: with the camera at `(0, 0, D)` looking at the origin, any perspective
projection and a store whose only object is an active sphere of radius `r` at
the origin, the cursor at the viewport centre maps to NDC `(0, 0)` and
`CheckObjectClick` returns index 0. -/
theorem CheckObjectClick_centre_hits (D r : ℝ) (screenW screenH : ℤ)
    (fovy aspect zNear zFar : ℝ) (obj : GameObject ℝ)
    (hD : 0 < D) (_hr : 0 < r) (hw : 0 < screenW) (hh : 0 < screenH)
    (hfov0 : 0 < fovy) (hfov1 : fovy < π) (ha : 0 < aspect)
    (hn : 0 < zNear) (hnf : zNear < zFar)
    (hact : obj.active = true) (hpos : obj.position = ⟨0, 0, 0⟩) (_hrad : obj.radius = r) :
    (2 * ((screenW : ℝ) / 2)) / (screenW : ℝ) - 1 = 0 ∧
    1 - (2 * ((screenH : ℝ) / 2)) / (screenH : ℝ) = 0 ∧
    CheckObjectClick Real.sqrt [obj] ((screenW : ℝ) / 2) ((screenH : ℝ) / 2) screenW screenH
        (lookAt Real.sqrt ⟨0, 0, D⟩ ⟨0, 0, 0⟩ ⟨0, 1, 0⟩)
        (perspective Real.tan fovy aspect zNear zFar) = 0 := by
  have hw' : (screenW : ℝ) ≠ 0 := by exact_mod_cast (ne_of_gt hw)
  have hh' : (screenH : ℝ) ≠ 0 := by exact_mod_cast (ne_of_gt hh)
  have hT : 0 < Real.tan (fovy / 2) :=
    Real.tan_pos_of_pos_of_lt_pi_div_two (by linarith) (by linarith)
  refine ⟨by field_simp, by field_simp, ?_⟩
  exact centre_ray_hits_origin_sphere 0 D hD fovy aspect zNear zFar (ne_of_gt hT) (ne_of_gt ha)
    (ne_of_gt hn) (by linarith) (by linarith) screenW screenH (ne_of_gt hw) (ne_of_gt hh)
    obj [] hact hpos

/-- Witness for C6: the camera at distance 10, a sphere of radius 1/2, a 1280 by
720 viewport and a 45 degree field of view. -/
theorem CheckObjectClick_centre_hits_witness :
    CheckObjectClick Real.sqrt
        [(⟨⟨0, 0, 0⟩, ⟨1, 1 / 2, 1 / 5⟩, true, 1 / 2, 0, 0, 1⟩ : GameObject ℝ)]
        (((1280 : ℤ) : ℝ) / 2) (((720 : ℤ) : ℝ) / 2) 1280 720
        (lookAt Real.sqrt ⟨0, 0, 10⟩ ⟨0, 0, 0⟩ ⟨0, 1, 0⟩)
        (perspective Real.tan (π / 4) (16 / 9) (1 / 10) 100) = 0 :=
  (CheckObjectClick_centre_hits 10 (1 / 2) 1280 720 (π / 4) (16 / 9) (1 / 10) 100
    ⟨⟨0, 0, 0⟩, ⟨1, 1 / 2, 1 / 5⟩, true, 1 / 2, 0, 0, 1⟩
    (by norm_num) (by norm_num) (by norm_num) (by norm_num)
    (by have := Real.pi_pos; linarith) (by have := Real.pi_pos; linarith)
    (by norm_num) (by norm_num) (by norm_num) rfl rfl rfl).2.2

/-- C7 as amended: for `D > r > 0` there is a field-of-view threshold `t` with
`0 < t < π` such that with the cursor at the corner `(width, 0)`, which maps
to NDC `(1, 1)`, `CheckObjectClick` returns `-1` for every vertical field of
view in `(t, π)` and returns index 0 for every vertical field of view in
`(0, t]`. -/
theorem CheckObjectClick_corner_misses_when_wide (D r aspect : ℝ) (screenW screenH : ℤ)
    (hr : 0 < r) (hDr : r < D) (ha : 0 < aspect) (hw : 0 < screenW) (_hh : 0 < screenH) :
    (2 * (screenW : ℝ)) / (screenW : ℝ) - 1 = 1 ∧
    1 - (2 * (0 : ℝ)) / (screenH : ℝ) = 1 ∧
    ∃ t : ℝ, 0 < t ∧ t < π ∧
      ∀ (fovy zNear zFar : ℝ) (obj : GameObject ℝ), 0 < zNear → zNear < zFar →
        obj.active = true → obj.position = ⟨0, 0, 0⟩ → obj.radius = r →
        (t < fovy → fovy < π →
          CheckObjectClick Real.sqrt [obj] (screenW : ℝ) 0 screenW screenH
            (lookAt Real.sqrt ⟨0, 0, D⟩ ⟨0, 0, 0⟩ ⟨0, 1, 0⟩)
            (perspective Real.tan fovy aspect zNear zFar) = -1) ∧
        (0 < fovy → fovy ≤ t →
          CheckObjectClick Real.sqrt [obj] (screenW : ℝ) 0 screenW screenH
            (lookAt Real.sqrt ⟨0, 0, D⟩ ⟨0, 0, 0⟩ ⟨0, 1, 0⟩)
            (perspective Real.tan fovy aspect zNear zFar) = 0) := by
  have hw' : (screenW : ℝ) ≠ 0 := by exact_mod_cast (ne_of_gt hw)
  refine ⟨by field_simp; ring, by simp, ?_⟩
  obtain ⟨t, ht0, ht1, hlow, hhigh⟩ := corner_threshold D r aspect hr hDr
  refine ⟨t, ht0, ht1, ?_⟩
  intro fovy zNear zFar obj hn hnf hact hpos hrad
  constructor
  · intro h0 h1
    obtain ⟨hT, hc⟩ := hhigh fovy h0 h1
    rw [corner_ray_result D (by linarith) fovy aspect zNear zFar hT (ne_of_gt ha)
      (ne_of_gt hn) (by linarith) (by linarith) screenW screenH (ne_of_gt hw) obj hact hpos,
      hrad, if_neg hc]
  · intro h0 h1
    obtain ⟨hT, hc⟩ := hlow fovy h0 h1
    rw [corner_ray_result D (by linarith) fovy aspect zNear zFar hT (ne_of_gt ha)
      (ne_of_gt hn) (by linarith) (by linarith) screenW screenH (ne_of_gt hw) obj hact hpos,
      hrad, if_pos hc]

/-- Witness for C7 as amended: the camera at distance 10, a sphere of radius
1/2, aspect 16/9 and a 1280 by 720 viewport. -/
theorem CheckObjectClick_corner_misses_when_wide_witness :
    (0 : ℝ) < 1 / 2 ∧ (1 / 2 : ℝ) < 10 ∧
    ∃ t : ℝ, 0 < t ∧ t < π ∧
      ∀ (fovy zNear zFar : ℝ) (obj : GameObject ℝ), 0 < zNear → zNear < zFar →
        obj.active = true → obj.position = ⟨0, 0, 0⟩ → obj.radius = 1 / 2 →
        (t < fovy → fovy < π →
          CheckObjectClick Real.sqrt [obj] ((1280 : ℤ) : ℝ) 0 1280 720
            (lookAt Real.sqrt ⟨0, 0, 10⟩ ⟨0, 0, 0⟩ ⟨0, 1, 0⟩)
            (perspective Real.tan fovy (16 / 9) zNear zFar) = -1) ∧
        (0 < fovy → fovy ≤ t →
          CheckObjectClick Real.sqrt [obj] ((1280 : ℤ) : ℝ) 0 1280 720
            (lookAt Real.sqrt ⟨0, 0, 10⟩ ⟨0, 0, 0⟩ ⟨0, 1, 0⟩)
            (perspective Real.tan fovy (16 / 9) zNear zFar) = 0) :=
  ⟨by norm_num, by norm_num,
    (CheckObjectClick_corner_misses_when_wide 10 (1 / 2) (16 / 9) 1280 720 (by norm_num)
      (by norm_num) (by norm_num) (by norm_num) (by norm_num)).2.2⟩

/-- Counterexample to C7 as stated: with the camera at distance 10, a sphere of
radius 1/2 at the origin, aspect 16/9 and a 1280 by 720 viewport there is no
threshold `t > 0` below which every field of view makes the corner click miss:
narrow fields of view make the corner ray hit. -/
theorem CheckObjectClick_corner_narrow_fov_hits :
    ¬ ∃ t : ℝ, 0 < t ∧ ∀ fovy : ℝ, 0 < fovy → fovy < t → fovy < π →
      CheckObjectClick Real.sqrt
        [(⟨⟨0, 0, 0⟩, ⟨1, 1 / 2, 1 / 5⟩, true, 1 / 2, 0, 0, 1⟩ : GameObject ℝ)]
        ((1280 : ℤ) : ℝ) 0 1280 720
        (lookAt Real.sqrt ⟨0, 0, 10⟩ ⟨0, 0, 0⟩ ⟨0, 1, 0⟩)
        (perspective Real.tan fovy (16 / 9) (1 / 10) 100) = -1 := by
  rintro ⟨t, ht, H⟩
  obtain ⟨t0, ht0, ht1, hlow, _⟩ := corner_threshold 10 (1 / 2) (16 / 9) (by norm_num)
    (by norm_num)
  have hmin0 : 0 < min (t / 2) t0 := lt_min (by linarith) ht0
  have hmin1 : min (t / 2) t0 < t := lt_of_le_of_lt (min_le_left _ _) (by linarith)
  have hmin2 : min (t / 2) t0 ≤ t0 := min_le_right _ _
  have hmiss := H (min (t / 2) t0) hmin0 hmin1 (by linarith)
  obtain ⟨hT, hc⟩ := hlow (min (t / 2) t0) hmin0 hmin2
  rw [corner_ray_result 10 (by norm_num) (min (t / 2) t0) (16 / 9) (1 / 10) 100 hT
    (by norm_num) (by norm_num) (by norm_num) (by norm_num) 1280 720 (by norm_num)
    _ rfl rfl, if_pos hc] at hmiss
  exact absurd hmiss (by norm_num)

end FieldOfView

/-! ## Object rotation -/

section Rotation
open Real

theorem spawned_quarter_turn_speed :
    (SpawnObjects Real.pi (fun _ => 45) (fun _ => 1) 1 5 [] 0 0).1 =
      [(⟨⟨-1 / 2, -1 / 2, -1 / 2⟩, ⟨1, 1 / 2, 1 / 5⟩, true, 1 / 2, 0, π / 2, 1⟩ :
        GameObject ℝ)] := by
  unfold SpawnObjects
  rw [SpawnObjectsLoop_eq Real.pi (fun _ => 45) (fun _ => 1) 1 5 1 0 [] 0 0 rfl]
  have h45 : (45 : ℤ).tmod 100 = 45 := by decide
  have h90 : (45 : ℤ).tmod 90 = 45 := by decide
  simp only [List.range_succ, List.range_zero, List.nil_append, List.map_cons, List.map_nil,
    spawnObject, radians, h45, h90]
  congr 1
  congr 1
  · congr 1 <;> norm_num
  · push_cast
    ring

/-- C3 (evaluation at the failing input): from the store `SpawnObjects` builds
when `rand() % 90` is 45 (rotation 0, speed `π/2`), one call of `UpdateObjects`
with `deltaTime = 10` leaves the active object at rotation `3π`, and one call
with `deltaTime = 4` leaves it at `2π`; neither is below `2π`. -/
theorem UpdateObjects_rotation_not_wrapped :
    ((UpdateObjects Real.pi 10
        (SpawnObjects Real.pi (fun _ => 45) (fun _ => 1) 1 5 [] 0 0).1).map
        (fun obj => (obj.active, obj.rotation)) = [(true, 3 * π)] ∧
      ¬ (3 * π < two_pi Real.pi)) ∧
    ((UpdateObjects Real.pi 4
        (SpawnObjects Real.pi (fun _ => 45) (fun _ => 1) 1 5 [] 0 0).1).map
        (fun obj => (obj.active, obj.rotation)) = [(true, 2 * π)] ∧
      ¬ (2 * π < two_pi Real.pi)) := by
  have hpi := Real.pi_pos
  rw [spawned_quarter_turn_speed]
  simp only [UpdateObjects, updateObject, two_pi, List.map_cons, List.map_nil, Bool.not_true,
    Bool.false_eq_true, if_false]
  have h10 : (0 : ℝ) + π / 2 * 10 > 2 * π := by linarith
  have h4 : ¬ ((0 : ℝ) + π / 2 * 4 > 2 * π) := by linarith
  rw [if_pos h10, if_neg h4]
  refine ⟨⟨?_, by linarith⟩, ?_, by linarith⟩
  · simp only [List.cons.injEq, Prod.mk.injEq, true_and, and_true]
    ring
  · simp only [List.cons.injEq, Prod.mk.injEq, true_and, and_true]
    ring

end Rotation

section RotationBound
variable {α : Type} [LinearOrderedField α]

/-- What the single subtraction of `UpdateObjects` does guarantee: a step of at
most one turn keeps a rotation that is in `[0, 2π]` inside `[0, 2π]`. -/
theorem updateObject_rotation_small_step (pi deltaTime : α) (obj : GameObject α)
    (h0 : 0 ≤ obj.rotation) (h1 : obj.rotation ≤ two_pi pi)
    (hs0 : 0 ≤ obj.rotationSpeed * deltaTime) (hs1 : obj.rotationSpeed * deltaTime ≤ two_pi pi) :
    0 ≤ (updateObject pi deltaTime obj).rotation ∧
      (updateObject pi deltaTime obj).rotation ≤ two_pi pi := by
  unfold updateObject
  split
  · exact ⟨h0, h1⟩
  · simp only []
    split
    · rename_i hgt
      simp only []
      constructor <;> linarith
    · rename_i hle
      simp only []
      constructor
      · linarith
      · exact le_of_not_lt hle

end RotationBound

/-! ## The main loop -/

section Frame
variable {α : Type} [LinearOrderedField α]

theorem UpdateParticles_eq_filter_step (deltaTime : α) (particles : List (Particle α)) :
    UpdateParticles deltaTime particles =
      (particles.map (stepParticle deltaTime)).filter (fun p => !decide (p.life ≤ 0)) := by
  have h := UpdateParticlesLoop_append deltaTime particles []
  simpa [UpdateParticles] using h

theorem UpdateParticles_append (deltaTime : α) (ps qs : List (Particle α)) :
    UpdateParticles deltaTime (ps ++ qs) =
      UpdateParticles deltaTime ps ++ UpdateParticles deltaTime qs := by
  simp only [UpdateParticles_eq_filter_step, List.map_append, List.filter_append]

theorem UpdateParticles_fresh (deltaTime : α) (burst : List (Particle α))
    (hlife : ∀ p ∈ burst, p.life = 1) :
    UpdateParticles deltaTime burst =
      if 0 < 1 - deltaTime * (3 / 2) then burst.map (stepParticle deltaTime) else [] := by
  rw [UpdateParticles_eq_filter_step]
  split
  · rename_i hpos
    apply List.filter_eq_self.2
    intro p hp
    obtain ⟨q, hq, rfl⟩ := List.mem_map.1 hp
    have : (stepParticle deltaTime q).life = 1 - deltaTime * (3 / 2) := by
      simp [stepParticle, hlife q hq]
    simp only [this, not_le.2 hpos, decide_False, Bool.not_false]
  · rename_i hneg
    apply List.filter_eq_nil_iff.2
    intro p hp
    obtain ⟨q, hq, rfl⟩ := List.mem_map.1 hp
    have : (stepParticle deltaTime q).life = 1 - deltaTime * (3 / 2) := by
      simp [stepParticle, hlife q hq]
    simp [this, le_of_not_lt hneg]

theorem frameRender_canClick (tan : α → α) (pi : α) (rnd : ℕ → ℤ) (tex : ℕ → ℕ) (s : State α)
    (inp : TickInput α) : (frameRender tan pi rnd tex s inp).canClick = s.canClick := by
  unfold frameRender
  cases hr : inp.resize with
  | none => cases hg : inp.regenerate <;> simp
  | some wh =>
    obtain ⟨w, h⟩ := wh
    cases hg : inp.regenerate <;> simp

theorem frameUpdate_canClick (sqrt : α → α) (pi : α) (rnd : ℕ → ℤ) (s : State α)
    (inp : TickInput α) :
    (frameUpdate sqrt pi rnd s inp).1.canClick =
      if inp.wantCaptureMouse = true then true
      else if inp.mousePressed = true then false else true := by
  unfold frameUpdate
  cases hu : inp.wantCaptureMouse <;> cases hp : inp.mousePressed <;>
    cases hc : s.canClick <;> simp [hc]

theorem frameUpdate_event (sqrt : α → α) (pi : α) (rnd : ℕ → ℤ) (s : State α)
    (inp : TickInput α) :
    (frameUpdate sqrt pi rnd s inp).2 =
      if inp.wantCaptureMouse = false ∧ inp.mousePressed = true ∧ s.canClick = true then
        some (CheckObjectClick sqrt
          (UpdateObjects pi (inp.currentFrame - s.lastFrame) s.objects) inp.xpos inp.ypos
          s.width s.height s.view s.projection)
      else none := by
  unfold frameUpdate
  cases hu : inp.wantCaptureMouse <;> cases hp : inp.mousePressed <;>
    cases hc : s.canClick <;> simp [hc]

theorem tick_canClick (sqrt tan : α → α) (pi : α) (rnd : ℕ → ℤ) (tex : ℕ → ℕ) (s : State α)
    (inp : TickInput α) :
    (tick sqrt tan pi rnd tex s inp).1.canClick =
      if inp.wantCaptureMouse = true then true
      else if inp.mousePressed = true then false else true := by
  unfold tick
  simp only [frameRender_canClick, frameUpdate_canClick]

theorem tick_event (sqrt tan : α → α) (pi : α) (rnd : ℕ → ℤ) (tex : ℕ → ℕ) (s : State α)
    (inp : TickInput α) :
    (tick sqrt tan pi rnd tex s inp).2 =
      if inp.wantCaptureMouse = false ∧ inp.mousePressed = true ∧ s.canClick = true then
        some (CheckObjectClick sqrt
          (UpdateObjects pi (inp.currentFrame - s.lastFrame) s.objects) inp.xpos inp.ypos
          s.width s.height s.view s.projection)
      else none := by
  unfold tick
  simp only [frameUpdate_event]

end Frame

section Debounce
variable {α : Type} [LinearOrderedField α]

theorem burstCount_le_pickCount (events : List (Option ℤ)) :
    burstCount events ≤ pickCount events := by
  unfold burstCount pickCount
  induction events with
  | nil => simp
  | cons e es ih =>
    cases e with
    | none => simpa using ih
    | some v =>
      by_cases hv : v = -1
      · subst hv
        simp only [List.filter_cons]
        simp
        omega
      · simp only [List.filter_cons]
        simp [hv]
        exact ih

theorem runTicks_cons (sqrt tan : α → α) (pi : α) (rnd : ℕ → ℤ) (tex : ℕ → ℕ) (s : State α)
    (inp : TickInput α) (rest : List (TickInput α)) :
    (runTicks sqrt tan pi rnd tex s (inp :: rest)).2 =
      (tick sqrt tan pi rnd tex s inp).2 ::
        (runTicks sqrt tan pi rnd tex (tick sqrt tan pi rnd tex s inp).1 rest).2 := rfl

theorem pickCount_held_consumed (sqrt tan : α → α) (pi : α) (rnd : ℕ → ℤ) (tex : ℕ → ℕ)
    (inputs : List (TickInput α)) :
    ∀ s : State α, s.canClick = false →
      (∀ inp ∈ inputs, inp.mousePressed = true) →
      (∀ inp ∈ inputs, inp.wantCaptureMouse = false) →
      pickCount (runTicks sqrt tan pi rnd tex s inputs).2 = 0 := by
  induction inputs with
  | nil => intro s _ _ _; rfl
  | cons inp rest ih =>
    intro s hc hp hu
    have hp0 := hp inp (List.mem_cons_self _ _)
    have hu0 := hu inp (List.mem_cons_self _ _)
    have hnext : (tick sqrt tan pi rnd tex s inp).1.canClick = false := by
      rw [tick_canClick]; simp [hp0, hu0]
    have hev : (tick sqrt tan pi rnd tex s inp).2 = none := by
      rw [tick_event]; simp [hc]
    have := ih _ hnext (fun i hi => hp i (List.mem_cons_of_mem _ hi))
      (fun i hi => hu i (List.mem_cons_of_mem _ hi))
    rw [runTicks_cons, hev]
    simpa [pickCount] using this

theorem pickCount_held (sqrt tan : α → α) (pi : α) (rnd : ℕ → ℤ) (tex : ℕ → ℕ)
    (s : State α) (inputs : List (TickInput α))
    (hp : ∀ inp ∈ inputs, inp.mousePressed = true)
    (hu : ∀ inp ∈ inputs, inp.wantCaptureMouse = false) :
    pickCount (runTicks sqrt tan pi rnd tex s inputs).2 ≤ 1 := by
  cases inputs with
  | nil => simp [runTicks, pickCount]
  | cons inp rest =>
    have hp0 := hp inp (List.mem_cons_self _ _)
    have hu0 := hu inp (List.mem_cons_self _ _)
    have hnext : (tick sqrt tan pi rnd tex s inp).1.canClick = false := by
      rw [tick_canClick]; simp [hp0, hu0]
    have hrest := pickCount_held_consumed sqrt tan pi rnd tex rest _ hnext
      (fun i hi => hp i (List.mem_cons_of_mem _ hi))
      (fun i hi => hu i (List.mem_cons_of_mem _ hi))
    rw [runTicks_cons]
    unfold pickCount at hrest ⊢
    rw [List.filter_cons]
    split
    · simp only [List.length_cons, hrest]
      omega
    · omega

theorem runTicks_rearmed (sqrt tan : α → α) (pi : α) (rnd : ℕ → ℤ) (tex : ℕ → ℕ)
    (mids : List (TickInput α)) (press : TickInput α)
    (hpress : press.mousePressed = true) (hui : press.wantCaptureMouse = false) :
    ∀ s : State α, s.canClick = true →
      (∀ m ∈ mids, m.mousePressed = false ∨ m.wantCaptureMouse = true) →
      ∃ hit : ℤ, (runTicks sqrt tan pi rnd tex s (mids ++ [press])).2 =
        List.replicate mids.length none ++ [some hit] := by
  induction mids with
  | nil =>
    intro s hc _
    refine ⟨CheckObjectClick sqrt
      (UpdateObjects pi (press.currentFrame - s.lastFrame) s.objects) press.xpos press.ypos
      s.width s.height s.view s.projection, ?_⟩
    simp only [List.nil_append, runTicks_cons, tick_event, hui, hpress, hc, and_self, if_true]
    rfl
  | cons m rest ih =>
    intro s hc hm
    have hm0 := hm m (List.mem_cons_self _ _)
    have hnext : (tick sqrt tan pi rnd tex s m).1.canClick = true := by
      rw [tick_canClick]
      rcases hm0 with h | h
      · simp [h]
      · simp [h]
    have hev : (tick sqrt tan pi rnd tex s m).2 = none := by
      rw [tick_event]
      rcases hm0 with h | h
      · simp [h]
      · simp [h]
    obtain ⟨hit, hrest⟩ := ih _ hnext (fun i hi => hm i (List.mem_cons_of_mem _ hi))
    refine ⟨hit, ?_⟩
    rw [List.cons_append, runTicks_cons, hev, hrest]
    rfl

/-- C5 as amended: over consecutive ticks in which the left button is pressed
and the pointer is not over the UI on every tick, whatever the cursor
positions, at most one tick calls `CheckObjectClick`, hence at most one
deactivate / `SpawnExplosion` pair runs; and from any state, after a tick with
the button released, the next tick with the button pressed and the pointer not
over the UI calls `CheckObjectClick` again. -/
theorem held_press_picks_at_most_once (sqrt tan : α → α) (pi : α) (rnd : ℕ → ℤ)
    (tex : ℕ → ℕ) (s : State α) (inputs : List (TickInput α))
    (hp : ∀ inp ∈ inputs, inp.mousePressed = true)
    (hu : ∀ inp ∈ inputs, inp.wantCaptureMouse = false) :
    pickCount (runTicks sqrt tan pi rnd tex s inputs).2 ≤ 1 ∧
    burstCount (runTicks sqrt tan pi rnd tex s inputs).2 ≤ 1 ∧
    ∀ (s' : State α) (release : TickInput α) (mids : List (TickInput α))
      (press : TickInput α),
      release.mousePressed = false →
      (∀ m ∈ mids, m.mousePressed = false ∨ m.wantCaptureMouse = true) →
      press.mousePressed = true → press.wantCaptureMouse = false →
      ∃ hit : ℤ, (runTicks sqrt tan pi rnd tex s' (release :: (mids ++ [press]))).2 =
        List.replicate (mids.length + 1) none ++ [some hit] := by
  have h1 := pickCount_held sqrt tan pi rnd tex s inputs hp hu
  refine ⟨h1, le_trans (burstCount_le_pickCount _) h1, ?_⟩
  intro s' release mids press hrel hmids hpress hui
  have hnext : (tick sqrt tan pi rnd tex s' release).1.canClick = true := by
    rw [tick_canClick]; simp [hrel]
  have hev : (tick sqrt tan pi rnd tex s' release).2 = none := by
    rw [tick_event]; simp [hrel]
  obtain ⟨hit, hrest⟩ := runTicks_rearmed sqrt tan pi rnd tex mids press hpress hui _ hnext hmids
  refine ⟨hit, ?_⟩
  rw [runTicks_cons, hev, hrest]
  rfl

/-- Witness for C5 as amended: two held ticks from the initial state of `main`. -/
theorem held_press_picks_at_most_once_witness :
    pickCount (runTicks Real.sqrt Real.tan Real.pi (fun _ => 50) (fun _ => 1)
      (initState Real.sqrt Real.tan Real.pi (fun _ => 50) (fun _ => 1))
      [pressAt (1 / 64) 640 360 false, pressAt (2 / 64) 640 360 false]).2 ≤ 1 :=
  (held_press_picks_at_most_once Real.sqrt Real.tan Real.pi (fun _ => 50) (fun _ => 1)
    (initState Real.sqrt Real.tan Real.pi (fun _ => 50) (fun _ => 1))
    [pressAt (1 / 64) 640 360 false, pressAt (2 / 64) 640 360 false]
    (by simp [pressAt]) (by simp [pressAt])).1

end Debounce

section HitTick
variable {α : Type} [LinearOrderedField α]

theorem CheckObjectClick_index (sqrt : α → α) (objects : List (GameObject α))
    (mouseX mouseY : α) (screenW screenH : ℤ) (view projection : Mat4 α) (i : ℕ)
    (h : CheckObjectClick sqrt objects mouseX mouseY screenW screenH view projection = (i : ℤ)) :
    ∃ obj, objects[i]? = some obj ∧ obj.active = true := by
  unfold CheckObjectClick at h
  have hne : CheckObjectClickLoop (rayOrigin view)
      (rayDirection sqrt mouseX mouseY screenW screenH view projection) objects 0 ≠ -1 := by
    omega
  obtain ⟨k, obj, hres, hk, hobj, _⟩ := CheckObjectClickLoop_some _ _ objects 0 hne
  have hki : k = i := by omega
  subst hki
  exact ⟨obj, hk, hobj.1⟩

theorem frameUpdate_hit (sqrt : α → α) (pi : α) (rnd : ℕ → ℤ) (s : State α)
    (inp : TickInput α) (i : ℕ) (obj : GameObject α)
    (hui : inp.wantCaptureMouse = false) (hp : inp.mousePressed = true)
    (hc : s.canClick = true)
    (hhit : CheckObjectClick sqrt
      (UpdateObjects pi (inp.currentFrame - s.lastFrame) s.objects) inp.xpos inp.ypos
      s.width s.height s.view s.projection = (i : ℤ))
    (hobj : (UpdateObjects pi (inp.currentFrame - s.lastFrame) s.objects)[i]? = some obj) :
    (frameUpdate sqrt pi rnd s inp).1.objects =
        (UpdateObjects pi (inp.currentFrame - s.lastFrame) s.objects).set i
          { obj with active := false } ∧
    (frameUpdate sqrt pi rnd s inp).1.particles =
        UpdateParticles (inp.currentFrame - s.lastFrame)
          (SpawnExplosion rnd obj.position s.particles s.randCalls).1 := by
  have hne : ((i : ℤ) ≠ -1) := by omega
  unfold frameUpdate
  simp only [hui, hp, hc, hhit, handleHit, if_true, Bool.false_eq_true, if_false, hne,
    ne_eq, not_false_eq_true, Int.toNat_ofNat, List.get?_eq_getElem?, hobj, and_self]

end HitTick

section HitTickState
variable {α : Type} [LinearOrderedField α]

theorem stepParticle_fresh (deltaTime : α) (center : Vec3 α) (p : Particle α)
    (hpos : p.position = center) (hlife : p.life = 1) :
    (stepParticle deltaTime p).life = 1 - (3 / 2) * deltaTime ∧
    (stepParticle deltaTime p).position = center.add (p.velocity.smul deltaTime) ∧
    (stepParticle deltaTime p).velocity = p.velocity := by
  refine ⟨?_, ?_, rfl⟩
  · simp only [stepParticle, hlife]
    ring
  · simp only [stepParticle, hpos]

/-- The state `frameUpdate` hands to the render section in a tick whose click hits
the object of index `i`. -/
theorem frameUpdate_hit_state (sqrt : α → α) (pi : α) (rnd : ℕ → ℤ) (s : State α)
    (inp : TickInput α) (i : ℕ)
    (hui : inp.wantCaptureMouse = false) (hp : inp.mousePressed = true)
    (hc : s.canClick = true)
    (hhit : CheckObjectClick sqrt
      (UpdateObjects pi (inp.currentFrame - s.lastFrame) s.objects) inp.xpos inp.ypos
      s.width s.height s.view s.projection = (i : ℤ)) :
    ∃ (obj : GameObject α) (burst : List (Particle α)),
      (UpdateObjects pi (inp.currentFrame - s.lastFrame) s.objects)[i]? = some obj ∧
      obj.active = true ∧
      (frameUpdate sqrt pi rnd s inp).2 = some (i : ℤ) ∧
      (frameUpdate sqrt pi rnd s inp).1.objects[i]? = some { obj with active := false } ∧
      burst.length = 20 ∧
      (∀ p ∈ burst, p.position = obj.position ∧ p.life = 1) ∧
      (frameUpdate sqrt pi rnd s inp).1.particles =
        UpdateParticles (inp.currentFrame - s.lastFrame) s.particles ++
          (if 0 < 1 - (3 / 2) * (inp.currentFrame - s.lastFrame) then
            burst.map (stepParticle (inp.currentFrame - s.lastFrame))
          else []) := by
  obtain ⟨obj, hobj, hact⟩ := CheckObjectClick_index sqrt _ _ _ _ _ _ _ i hhit
  obtain ⟨hobjs, hparts⟩ := frameUpdate_hit sqrt pi rnd s inp i obj hui hp hc hhit hobj
  obtain ⟨burst, hburst, hlen, hall⟩ :=
    SpawnExplosion_burst rnd obj.position s.particles s.randCalls
  refine ⟨obj, burst, hobj, hact, ?_, ?_, hlen, hall, ?_⟩
  · rw [frameUpdate_event, if_pos ⟨hui, hp, hc⟩, hhit]
  · rw [hobjs]
    have hlt : i < (UpdateObjects pi (inp.currentFrame - s.lastFrame) s.objects).length := by
      by_contra hge
      rw [List.getElem?_eq_none (by omega)] at hobj
      exact absurd hobj (by simp)
    simp [List.getElem?_set, hlt]
  · rw [hparts, hburst, UpdateParticles_append,
      UpdateParticles_fresh _ burst (fun p hp => (hall p hp).2)]
    have : (inp.currentFrame - s.lastFrame) * (3 / 2) =
        3 / 2 * (inp.currentFrame - s.lastFrame) := mul_comm _ _
    rw [this]

theorem handleHit_deltaTime (rnd : ℕ → ℤ) (s : State α) (hitIndex : ℤ) :
    (handleHit rnd s hitIndex).deltaTime = s.deltaTime := by
  unfold handleHit
  split
  · split <;> rfl
  · rfl

theorem frameUpdate_deltaTime (sqrt : α → α) (pi : α) (rnd : ℕ → ℤ) (s : State α)
    (inp : TickInput α) :
    (frameUpdate sqrt pi rnd s inp).1.deltaTime = inp.currentFrame - s.lastFrame := by
  unfold frameUpdate
  cases hu : inp.wantCaptureMouse <;> cases hp : inp.mousePressed <;>
    cases hc : s.canClick <;> simp [hc, handleHit_deltaTime]

/-- C4 as amended: in a tick whose click handling hits the active object of index
`i`, the state the render section iterates over has `objects[i]` inactive, so it
is not among the drawn objects, and its particle list is the prior particles
aged by `UpdateParticles(deltaTime)` followed by the 20 burst particles aged
once as well: each has life `1 - 1.5*deltaTime` and position
`centre + velocity*deltaTime` when `1 - 1.5*deltaTime > 0`, and none of them is
left otherwise. -/
theorem hit_tick_render_state (sqrt : α → α) (pi : α) (rnd : ℕ → ℤ) (s : State α)
    (inp : TickInput α) (i : ℕ)
    (hui : inp.wantCaptureMouse = false) (hp : inp.mousePressed = true)
    (hc : s.canClick = true)
    (hhit : CheckObjectClick sqrt
      (UpdateObjects pi (inp.currentFrame - s.lastFrame) s.objects) inp.xpos inp.ypos
      s.width s.height s.view s.projection = (i : ℤ)) :
    ∃ (obj : GameObject α) (burst : List (Particle α)),
      (UpdateObjects pi (inp.currentFrame - s.lastFrame) s.objects)[i]? = some obj ∧
      obj.active = true ∧
      (frameUpdate sqrt pi rnd s inp).2 = some (i : ℤ) ∧
      (frameUpdate sqrt pi rnd s inp).1.objects[i]? = some { obj with active := false } ∧
      (∀ o ∈ drawnObjects (frameUpdate sqrt pi rnd s inp).1, o.active = true) ∧
      burst.length = 20 ∧
      (∀ p ∈ burst, p.position = obj.position ∧ p.life = 1) ∧
      (frameUpdate sqrt pi rnd s inp).1.particles =
        UpdateParticles (inp.currentFrame - s.lastFrame) s.particles ++
          (if 0 < 1 - (3 / 2) * (inp.currentFrame - s.lastFrame) then
            burst.map (stepParticle (inp.currentFrame - s.lastFrame))
          else []) ∧
      (∀ p ∈ burst,
        (stepParticle (inp.currentFrame - s.lastFrame) p).life =
          1 - (3 / 2) * (inp.currentFrame - s.lastFrame) ∧
        (stepParticle (inp.currentFrame - s.lastFrame) p).position =
          obj.position.add (p.velocity.smul (inp.currentFrame - s.lastFrame)) ∧
        (stepParticle (inp.currentFrame - s.lastFrame) p).velocity = p.velocity) := by
  obtain ⟨obj, burst, h1, h2, h3, h4, h5, h6, h7⟩ :=
    frameUpdate_hit_state sqrt pi rnd s inp i hui hp hc hhit
  refine ⟨obj, burst, h1, h2, h3, h4, ?_, h5, h6, h7, ?_⟩
  · intro o ho
    unfold drawnObjects at ho
    exact (List.mem_filter.1 ho).2
  · intro p hp
    exact stepParticle_fresh _ obj.position p (h6 p hp).1 (h6 p hp).2

end HitTickState

section FirstTick
open Real

theorem updateObject_active_position (pi deltaTime : ℝ) (obj : GameObject ℝ) :
    (updateObject pi deltaTime obj).active = obj.active ∧
    (updateObject pi deltaTime obj).position = obj.position := by
  unfold updateObject
  split
  · exact ⟨rfl, rfl⟩
  · simp only []
    split <;> exact ⟨rfl, rfl⟩

/-- In the initial state of `main` with both objects spawned at the origin, a click
at the centre of the viewport returns index 0. -/
theorem initState_centre_click (t : ℝ) :
    CheckObjectClick Real.sqrt
      (UpdateObjects Real.pi
        ((pressAt t 640 360 false).currentFrame -
          (initState Real.sqrt Real.tan Real.pi (fun _ => 50) (fun _ => 1)).lastFrame)
        (initState Real.sqrt Real.tan Real.pi (fun _ => 50) (fun _ => 1)).objects)
      (pressAt t 640 360 false).xpos (pressAt t 640 360 false).ypos
      (initState Real.sqrt Real.tan Real.pi (fun _ => 50) (fun _ => 1)).width
      (initState Real.sqrt Real.tan Real.pi (fun _ => 50) (fun _ => 1)).height
      (initState Real.sqrt Real.tan Real.pi (fun _ => 50) (fun _ => 1)).view
      (initState Real.sqrt Real.tan Real.pi (fun _ => 50) (fun _ => 1)).projection =
      ((0 : ℕ) : ℤ) := by
  have hobjs : (SpawnObjects Real.pi (fun _ => 50) (fun _ => 1) 2 (5 : ℝ) [] 0 0).1 =
      [spawnObject Real.pi (fun _ => 50) 5 0 1, spawnObject Real.pi (fun _ => 50) 5 4 1] := by
    unfold SpawnObjects
    rw [SpawnObjectsLoop_eq Real.pi (fun _ => 50) (fun _ => 1) 2 5 2 0 [] 0 0 rfl]
    simp [List.range_succ]
  simp only [initState, pressAt, hobjs, UpdateObjects, List.map_cons, List.map_nil]
  have hpi := Real.pi_pos
  have hT : Real.tan (radians Real.pi 45 / 2) ≠ 0 := by
    apply ne_of_gt
    apply Real.tan_pos_of_pos_of_lt_pi_div_two
    · unfold radians; linarith
    · unfold radians; linarith
  have hpos : (updateObject Real.pi (t - 0) (spawnObject Real.pi (fun _ => 50) 5 0 1)).position =
      ⟨0, 0, 0⟩ := by
    rw [(updateObject_active_position _ _ _).2]
    have h50 : (50 : ℤ).tmod 100 = 50 := by decide
    simp only [spawnObject, h50]
    norm_num
  have hact : (updateObject Real.pi (t - 0) (spawnObject Real.pi (fun _ => 50) 5 0 1)).active =
      true := by
    rw [(updateObject_active_position _ _ _).1]
    rfl
  have h := centre_ray_hits_origin_sphere 5 10 (by norm_num) (radians Real.pi 45)
    ((1280 : ℝ) / 720) (1 / 10) 100 hT (by norm_num) (by norm_num) (by norm_num) (by norm_num)
    1280 720 (by norm_num) (by norm_num) _
    [updateObject Real.pi (t - 0) (spawnObject Real.pi (fun _ => 50) 5 4 1)] hact hpos
  have hx : (((1280 : ℤ) : ℝ) / 2) = 640 := by norm_num
  have hy : (((720 : ℤ) : ℝ) / 2) = 360 := by norm_num
  rw [hx, hy] at h
  rw [Nat.cast_zero]
  exact h

end FirstTick

section FirstTickClaims
open Real

/-- Witness for C4 as amended: the first tick of `main` with an object spawned at
the origin and a click at the centre of the 1280 by 720 viewport. -/
theorem hit_tick_render_state_witness :
    (frameUpdate Real.sqrt Real.pi (fun _ => 50)
      (initState Real.sqrt Real.tan Real.pi (fun _ => 50) (fun _ => 1))
      (pressAt (1 / 64) 640 360 false)).2 = some ((0 : ℕ) : ℤ) := by
  obtain ⟨_, _, _, _, h, _⟩ := hit_tick_render_state Real.sqrt Real.pi (fun _ => 50)
    (initState Real.sqrt Real.tan Real.pi (fun _ => 50) (fun _ => 1))
    (pressAt (1 / 64) 640 360 false) 0 rfl rfl rfl (initState_centre_click (1 / 64))
  exact h

/-- Counterexample to C4 as stated: in the first tick of `main`, with
`deltaTime = 1/64`, an object spawned at the origin and a click at the centre
of the viewport, `CheckObjectClick` returns index 0, and the particle list the
render section iterates over holds 20 particles, every one with life `125/128`
and none with life `1.0`. -/
theorem burst_already_aged_when_rendered :
    (pressAt (1 / 64 : ℝ) 640 360 false).wantCaptureMouse = false ∧
    (pressAt (1 / 64 : ℝ) 640 360 false).mousePressed = true ∧
    (initState Real.sqrt Real.tan Real.pi (fun _ => 50) (fun _ => 1)).canClick = true ∧
    (frameUpdate Real.sqrt Real.pi (fun _ => 50)
      (initState Real.sqrt Real.tan Real.pi (fun _ => 50) (fun _ => 1))
      (pressAt (1 / 64) 640 360 false)).1.deltaTime = 1 / 64 ∧
    (frameUpdate Real.sqrt Real.pi (fun _ => 50)
      (initState Real.sqrt Real.tan Real.pi (fun _ => 50) (fun _ => 1))
      (pressAt (1 / 64) 640 360 false)).2 = some 0 ∧
    (frameUpdate Real.sqrt Real.pi (fun _ => 50)
      (initState Real.sqrt Real.tan Real.pi (fun _ => 50) (fun _ => 1))
      (pressAt (1 / 64) 640 360 false)).1.particles.length = 20 ∧
    ∀ p ∈ (frameUpdate Real.sqrt Real.pi (fun _ => 50)
      (initState Real.sqrt Real.tan Real.pi (fun _ => 50) (fun _ => 1))
      (pressAt (1 / 64) 640 360 false)).1.particles, p.life = 125 / 128 ∧ p.life ≠ 1 := by
  obtain ⟨obj, burst, _, _, hev, _, hlen, hall, hparts⟩ :=
    frameUpdate_hit_state Real.sqrt Real.pi (fun _ => 50)
      (initState Real.sqrt Real.tan Real.pi (fun _ => 50) (fun _ => 1))
      (pressAt (1 / 64) 640 360 false) 0 rfl rfl rfl (initState_centre_click (1 / 64))
  have hdt : (pressAt (1 / 64 : ℝ) 640 360 false).currentFrame -
      (initState Real.sqrt Real.tan Real.pi (fun _ => 50) (fun _ => 1)).lastFrame = 1 / 64 := by
    simp only [pressAt, initState]
    norm_num
  have hprior : (initState Real.sqrt Real.tan Real.pi (fun _ => 50) (fun _ => 1)).particles =
      [] := by
    simp only [initState]
  rw [hdt, hprior, UpdateParticles_eq_filter_step, if_pos (by norm_num)] at hparts
  simp only [List.map_nil, List.filter_nil, List.nil_append] at hparts
  refine ⟨rfl, rfl, rfl, ?_, ?_, ?_, ?_⟩
  · rw [frameUpdate_deltaTime, hdt]
  · rw [hev]
    rfl
  · rw [hparts, List.length_map, hlen]
  · intro p hp
    rw [hparts] at hp
    obtain ⟨q, hq, rfl⟩ := List.mem_map.1 hp
    have hl := (stepParticle_fresh (1 / 64 : ℝ) obj.position q (hall q hq).1 (hall q hq).2).1
    rw [hl]
    constructor <;> norm_num

end FirstTickClaims

/-! ## A held press with the pointer crossing the UI -/

section TickFields
variable {α : Type} [LinearOrderedField α]

theorem handleHit_camera (rnd : ℕ → ℤ) (s : State α) (hitIndex : ℤ) :
    (handleHit rnd s hitIndex).width = s.width ∧ (handleHit rnd s hitIndex).height = s.height ∧
    (handleHit rnd s hitIndex).view = s.view ∧
    (handleHit rnd s hitIndex).projection = s.projection ∧
    (handleHit rnd s hitIndex).lastFrame = s.lastFrame := by
  unfold handleHit
  split
  · split <;> exact ⟨rfl, rfl, rfl, rfl, rfl⟩
  · exact ⟨rfl, rfl, rfl, rfl, rfl⟩

theorem frameUpdate_camera (sqrt : α → α) (pi : α) (rnd : ℕ → ℤ) (s : State α)
    (inp : TickInput α) :
    (frameUpdate sqrt pi rnd s inp).1.width = s.width ∧
    (frameUpdate sqrt pi rnd s inp).1.height = s.height ∧
    (frameUpdate sqrt pi rnd s inp).1.view = s.view ∧
    (frameUpdate sqrt pi rnd s inp).1.projection = s.projection ∧
    (frameUpdate sqrt pi rnd s inp).1.lastFrame = inp.currentFrame := by
  unfold frameUpdate
  cases hu : inp.wantCaptureMouse <;> cases hp : inp.mousePressed <;>
    cases hc : s.canClick <;> simp [hc, handleHit_camera]

theorem frameUpdate_over_ui_objects (sqrt : α → α) (pi : α) (rnd : ℕ → ℤ) (s : State α)
    (inp : TickInput α) (hui : inp.wantCaptureMouse = true) :
    (frameUpdate sqrt pi rnd s inp).1.objects =
      UpdateObjects pi (inp.currentFrame - s.lastFrame) s.objects := by
  unfold frameUpdate
  simp [hui]

theorem tick_pressAt (sqrt tan : α → α) (pi : α) (rnd : ℕ → ℤ) (tex : ℕ → ℕ) (s : State α)
    (t x y : α) (ui : Bool) :
    (tick sqrt tan pi rnd tex s (pressAt t x y ui)).1.width = s.width ∧
    (tick sqrt tan pi rnd tex s (pressAt t x y ui)).1.height = s.height ∧
    (tick sqrt tan pi rnd tex s (pressAt t x y ui)).1.view = s.view ∧
    (tick sqrt tan pi rnd tex s (pressAt t x y ui)).1.projection =
      perspective tan (radians pi 45) ((s.width : α) / (s.height : α)) (1 / 10) 100 ∧
    (tick sqrt tan pi rnd tex s (pressAt t x y ui)).1.lastFrame = t ∧
    (tick sqrt tan pi rnd tex s (pressAt t x y ui)).1.objects =
      (frameUpdate sqrt pi rnd s (pressAt t x y ui)).1.objects := by
  obtain ⟨h1, h2, h3, _, h5⟩ := frameUpdate_camera sqrt pi rnd s (pressAt t x y ui)
  unfold tick frameRender
  simp only [pressAt, Bool.false_eq_true, if_false] at h1 h2 h3 h5 ⊢
  exact ⟨h1, h2, h3, by rw [h1, h2], h5, trivial⟩

end TickFields

section SkipInactive
variable {α : Type} [LinearOrderedField α]

theorem CheckObjectClick_skip_inactive (sqrt : α → α) (a b : GameObject α)
    (rest : List (GameObject α)) (mouseX mouseY : α) (screenW screenH : ℤ)
    (view projection : Mat4 α) (ha : a.active = false)
    (hb : CheckObjectClick sqrt (b :: rest) mouseX mouseY screenW screenH view projection = 0) :
    CheckObjectClick sqrt (a :: b :: rest) mouseX mouseY screenW screenH view projection = 1 := by
  unfold CheckObjectClick at hb ⊢
  rw [CheckObjectClickLoop_cons] at hb
  rw [CheckObjectClickLoop_cons, if_neg (by simp [ha]), CheckObjectClickLoop_cons]
  split at hb
  · rename_i hP
    rw [if_pos hP]
    rfl
  · rcases CheckObjectClickLoop_range (rayOrigin view)
      (rayDirection sqrt mouseX mouseY screenW screenH view projection) rest (0 + 1) with h | h
    · rw [h] at hb
      exact absurd hb (by decide)
    · omega

end SkipInactive

section SecondObject
open Real

theorem centre_click_second_object (a b : GameObject ℝ) (ha : a.active = false)
    (hb : b.active = true) (hpos : b.position = ⟨0, 0, 0⟩) :
    CheckObjectClick Real.sqrt [a, b] 640 360 1280 720
      (lookAt Real.sqrt ⟨0, 5, 10⟩ ⟨0, 0, 0⟩ ⟨0, 1, 0⟩)
      (perspective Real.tan (radians Real.pi 45) (((1280 : ℤ) : ℝ) / ((720 : ℤ) : ℝ)) (1 / 10)
        100) = 1 := by
  have hpi := Real.pi_pos
  have hT : Real.tan (radians Real.pi 45 / 2) ≠ 0 := by
    apply ne_of_gt
    apply Real.tan_pos_of_pos_of_lt_pi_div_two
    · unfold radians; linarith
    · unfold radians; linarith
  have h := centre_ray_hits_origin_sphere 5 10 (by norm_num) (radians Real.pi 45)
    (((1280 : ℤ) : ℝ) / ((720 : ℤ) : ℝ)) (1 / 10) 100 hT (by norm_num) (by norm_num)
    (by norm_num) (by norm_num) 1280 720 (by norm_num) (by norm_num) b [] hb hpos
  have hx : (((1280 : ℤ) : ℝ) / 2) = 640 := by norm_num
  have hy : (((720 : ℤ) : ℝ) / 2) = 360 := by norm_num
  rw [hx, hy] at h
  exact CheckObjectClick_skip_inactive Real.sqrt a b [] 640 360 1280 720 _ _ ha h

end SecondObject

section HeldOverUI
open Real

theorem initState_objects :
    (initState Real.sqrt Real.tan Real.pi (fun _ => 50) (fun _ => 1)).objects =
      [spawnObject Real.pi (fun _ => 50) 5 0 1, spawnObject Real.pi (fun _ => 50) 5 4 1] := by
  have hobjs : (SpawnObjects Real.pi (fun _ => 50) (fun _ => 1) 2 (5 : ℝ) [] 0 0).1 =
      [spawnObject Real.pi (fun _ => 50) 5 0 1, spawnObject Real.pi (fun _ => 50) 5 4 1] := by
    unfold SpawnObjects
    rw [SpawnObjectsLoop_eq Real.pi (fun _ => 50) (fun _ => 1) 2 5 2 0 [] 0 0 rfl]
    simp [List.range_succ]
  simp only [initState, hobjs]

theorem spawnObject_at_origin (calls textureID : ℕ) :
    (spawnObject Real.pi (fun _ => 50) (5 : ℝ) calls textureID).position = ⟨0, 0, 0⟩ ∧
    (spawnObject Real.pi (fun _ => 50) (5 : ℝ) calls textureID).active = true := by
  have h50 : (50 : ℤ).tmod 100 = 50 := by decide
  refine ⟨?_, rfl⟩
  simp only [spawnObject, h50]
  norm_num

/-- Counterexample to C5 as stated: three consecutive ticks from the initial
state of `main` (both objects spawned at the origin), the button pressed and
the cursor at the centre of the viewport on each, the pointer over the UI on
the second only. The first and the third tick both call `CheckObjectClick`,
which returns index 0 and then index 1: two deactivate / `SpawnExplosion`
pairs within one held press. -/
theorem held_press_over_ui_picks_twice :
    (∀ inp ∈ [pressAt (1 / 64 : ℝ) 640 360 false, pressAt (2 / 64) 640 360 true,
        pressAt (3 / 64) 640 360 false], inp.mousePressed = true) ∧
    (runTicks Real.sqrt Real.tan Real.pi (fun _ => 50) (fun _ => 1)
      (initState Real.sqrt Real.tan Real.pi (fun _ => 50) (fun _ => 1))
      [pressAt (1 / 64) 640 360 false, pressAt (2 / 64) 640 360 true,
        pressAt (3 / 64) 640 360 false]).2 = [some 0, none, some 1] ∧
    pickCount (runTicks Real.sqrt Real.tan Real.pi (fun _ => 50) (fun _ => 1)
      (initState Real.sqrt Real.tan Real.pi (fun _ => 50) (fun _ => 1))
      [pressAt (1 / 64) 640 360 false, pressAt (2 / 64) 640 360 true,
        pressAt (3 / 64) 640 360 false]).2 = 2 ∧
    burstCount (runTicks Real.sqrt Real.tan Real.pi (fun _ => 50) (fun _ => 1)
      (initState Real.sqrt Real.tan Real.pi (fun _ => 50) (fun _ => 1))
      [pressAt (1 / 64) 640 360 false, pressAt (2 / 64) 640 360 true,
        pressAt (3 / 64) 640 360 false]).2 = 2 := by
  have hevents : (runTicks Real.sqrt Real.tan Real.pi (fun _ => 50) (fun _ => 1)
      (initState Real.sqrt Real.tan Real.pi (fun _ => 50) (fun _ => 1))
      [pressAt (1 / 64) 640 360 false, pressAt (2 / 64) 640 360 true,
        pressAt (3 / 64) 640 360 false]).2 = [some 0, none, some 1] := by
    simp only [runTicks_cons]
    -- first tick: the click hits object 0
    have he1 : (tick Real.sqrt Real.tan Real.pi (fun _ => 50) (fun _ => 1)
        (initState Real.sqrt Real.tan Real.pi (fun _ => 50) (fun _ => 1))
        (pressAt (1 / 64) 640 360 false)).2 = some 0 := by
      rw [tick_event, if_pos ⟨rfl, rfl, rfl⟩, initState_centre_click, Nat.cast_zero]
    have hupd : UpdateObjects Real.pi
        ((pressAt (1 / 64 : ℝ) 640 360 false).currentFrame -
          (initState Real.sqrt Real.tan Real.pi (fun _ => 50) (fun _ => 1)).lastFrame)
        (initState Real.sqrt Real.tan Real.pi (fun _ => 50) (fun _ => 1)).objects =
        [updateObject Real.pi ((pressAt (1 / 64 : ℝ) 640 360 false).currentFrame -
            (initState Real.sqrt Real.tan Real.pi (fun _ => 50) (fun _ => 1)).lastFrame)
            (spawnObject Real.pi (fun _ => 50) 5 0 1),
          updateObject Real.pi ((pressAt (1 / 64 : ℝ) 640 360 false).currentFrame -
            (initState Real.sqrt Real.tan Real.pi (fun _ => 50) (fun _ => 1)).lastFrame)
            (spawnObject Real.pi (fun _ => 50) 5 4 1)] := by
      rw [initState_objects]
      rfl
    obtain ⟨hw1, hh1, hv1, _, hl1, ho1⟩ := tick_pressAt Real.sqrt Real.tan Real.pi
      (fun _ => 50) (fun _ => 1)
      (initState Real.sqrt Real.tan Real.pi (fun _ => 50) (fun _ => 1)) (1 / 64) 640 360 false
    have hobjs1 := (frameUpdate_hit Real.sqrt Real.pi (fun _ => 50)
      (initState Real.sqrt Real.tan Real.pi (fun _ => 50) (fun _ => 1))
      (pressAt (1 / 64) 640 360 false) 0 _ rfl rfl rfl (initState_centre_click (1 / 64))
      (by rw [hupd]; rfl)).1
    rw [hupd] at hobjs1
    rw [hobjs1] at ho1
    simp only [List.set_cons_zero] at ho1
    have hc1 : (tick Real.sqrt Real.tan Real.pi (fun _ => 50) (fun _ => 1)
        (initState Real.sqrt Real.tan Real.pi (fun _ => 50) (fun _ => 1))
        (pressAt (1 / 64) 640 360 false)).1.canClick = false := by
      rw [tick_canClick]
      simp [pressAt]
    have hw0 : (initState Real.sqrt Real.tan Real.pi (fun _ => 50) (fun _ => 1)).width = 1280 :=
      rfl
    have hh0 : (initState Real.sqrt Real.tan Real.pi (fun _ => 50) (fun _ => 1)).height = 720 :=
      rfl
    have hv0 : (initState Real.sqrt Real.tan Real.pi (fun _ => 50) (fun _ => 1)).view =
        lookAt Real.sqrt ⟨0, 5, 10⟩ ⟨0, 0, 0⟩ ⟨0, 1, 0⟩ := rfl
    rw [hw0] at hw1
    rw [hh0] at hh1
    rw [hv0] at hv1
    rw [he1]
    generalize (tick Real.sqrt Real.tan Real.pi (fun _ => 50) (fun _ => 1)
        (initState Real.sqrt Real.tan Real.pi (fun _ => 50) (fun _ => 1))
        (pressAt (1 / 64) 640 360 false)).1 = s1 at hw1 hh1 hv1 hl1 ho1 hc1 ⊢
    -- second tick: the pointer is over the UI
    have he2 : (tick Real.sqrt Real.tan Real.pi (fun _ => 50) (fun _ => 1) s1
        (pressAt (2 / 64) 640 360 true)).2 = none := by
      rw [tick_event]
      simp [pressAt]
    have hc2 : (tick Real.sqrt Real.tan Real.pi (fun _ => 50) (fun _ => 1) s1
        (pressAt (2 / 64) 640 360 true)).1.canClick = true := by
      rw [tick_canClick]
      simp [pressAt]
    obtain ⟨hw2, hh2, hv2, hp2, hl2, ho2⟩ := tick_pressAt Real.sqrt Real.tan Real.pi
      (fun _ => 50) (fun _ => 1) s1 (2 / 64) 640 360 true
    rw [frameUpdate_over_ui_objects _ _ _ _ _ rfl, ho1] at ho2
    simp only [UpdateObjects, List.map_cons, List.map_nil] at ho2
    rw [hw1] at hw2
    rw [hh1] at hh2
    rw [hv1] at hv2
    rw [hw1, hh1] at hp2
    rw [he2]
    generalize (tick Real.sqrt Real.tan Real.pi (fun _ => 50) (fun _ => 1) s1
        (pressAt (2 / 64) 640 360 true)).1 = s2 at hw2 hh2 hv2 hp2 hl2 ho2 hc2 ⊢
    -- third tick: the click hits object 1
    rw [tick_event, if_pos ⟨rfl, rfl, hc2⟩, hw2, hh2, hv2, hp2, ho2]
    simp only [UpdateObjects, List.map_cons, List.map_nil, pressAt]
    rw [centre_click_second_object]
    · rfl
    · simp only [(updateObject_active_position _ _ _).1]
    · simp only [(updateObject_active_position _ _ _).1]
      exact (spawnObject_at_origin 4 1).2
    · simp only [(updateObject_active_position _ _ _).2]
      exact (spawnObject_at_origin 4 1).1
  refine ⟨by simp [pressAt], hevents, ?_, ?_⟩
  · rw [hevents]
    rfl
  · rw [hevents]
    rfl

end HeldOverUI

end Engine
